import Mathlib

/-!
Verification of the OAuth credential rotation + resilient streaming engine of the
gemini-cli-proxy repository, as a shallow embedding of the TypeScript source
(`src/gemini/client.ts`, `src/utils/oauth-rotator.ts`) into Lean.

JavaScript strings are modelled as `List Char`, JSON parsing as an explicit
parameter (`parse`), file systems as association lists, and the asynchronous
generator recursion of the client as fuel-indexed structural recursion.
-/

/- ===================== SSE frame parser (GeminiApiClient.parseSSEStream) ===================== -/

/-- Whitespace characters recognised by JavaScript `String.prototype.trim`
(common subset: space, tab, carriage return, line feed). -/
def isJsWs (c : Char) : Bool :=
  c = ' ' || c = '\t' || c = '\r' || c = '\n'

/-- `trim` from the left only. -/
def jsTrimLeft (s : List Char) : List Char :=
  s.dropWhile (fun c => isJsWs c)

/-- JavaScript `String.prototype.trim`: drop whitespace from both ends. -/
def jsTrim (s : List Char) : List Char :=
  ((jsTrimLeft s.reverse).reverse).dropWhile (fun c => isJsWs c)

/-- The SSE event-data marker `"data: "` checked by `line.startsWith("data: ")`. -/
def dataMarker : List Char := 'd' :: 'a' :: 't' :: 'a' :: ':' :: ' ' :: []

/-- `buffer.split("\n")`: maximal line-feed-free segments.  The last segment is the
incomplete remainder the source keeps in its buffer (`lines.pop()`). -/
def splitNl : List Char → List (List Char)
  | [] => [[]]
  | c :: cs =>
    if c = '\n' then [] :: splitNl cs
    else
      match splitNl cs with
      | [] => [[c]]
      | l :: ls => (c :: l) :: ls

/-- Handling of one complete line in `parseSSEStream`: a blank line flushes a
non-empty object buffer (the flushed text is the emitted event payload);
a `data: `-prefixed line appends its payload (`line.substring(6)`) to the
object buffer; any other line is ignored. -/
def processLine (objectBuffer line : List Char) : List Char × List (List Char) :=
  if (jsTrim line).isEmpty then
    if objectBuffer.isEmpty then (objectBuffer, [])
    else ([], [objectBuffer])
  else if dataMarker.isPrefixOf line then
    (objectBuffer ++ line.drop 6, [])
  else (objectBuffer, [])

/-- Process a list of complete lines in order, collecting flushed event payloads. -/
def processLines (objectBuffer : List Char) : List (List Char) → List Char × List (List Char)
  | [] => (objectBuffer, [])
  | l :: ls =>
    let r := processLine objectBuffer l
    let r' := processLines r.1 ls
    (r'.1, r.2 ++ r'.2)

/-- Parser state of `parseSSEStream`: the pending partial line (`buffer`) and the
pending event payload (`objectBuffer`). -/
structure SSEState where
  buffer : List Char
  objectBuffer : List Char
deriving DecidableEq, Repr

/-- One `reader.read()` step of `parseSSEStream`: append the chunk to the line
buffer, extract all complete lines, keep the trailing remainder. -/
def feedChunk (st : SSEState) (chunk : List Char) : SSEState × List (List Char) :=
  let parts := splitNl (st.buffer ++ chunk)
  let r := processLines st.objectBuffer parts.dropLast
  (⟨parts.getLastD [], r.1⟩, r.2)

/-- Feed a sequence of chunks. -/
def feedAll (st : SSEState) : List (List Char) → SSEState × List (List Char)
  | [] => (st, [])
  | c :: cs =>
    let r := feedChunk st c
    let r' := feedAll r.1 cs
    (r'.1, r.2 ++ r'.2)

/-- The `done` branch of `parseSSEStream`: flush a non-empty remaining object buffer. -/
def finalizeSSE (st : SSEState) : List (List Char) :=
  if st.objectBuffer.isEmpty then [] else [st.objectBuffer]

/- ============ malformed-frame recovery (GeminiApiClient.tryRecoverMultipleJson) ============ -/

/-- The character-by-character brace scan of `tryRecoverMultipleJson`: increment on
`{`, decrement on `}`, and return `i + 1` at the first position where the balance
is zero after processing character `i`. -/
def braceScan : Int → Nat → List Char → Option Nat
  | _, _, [] => none
  | bal, i, c :: cs =>
    let bal := if c = '{' then bal + 1 else if c = '}' then bal - 1 else bal
    if bal = 0 then some (i + 1) else braceScan bal (i + 1) cs

/-- `splitIndex` computation of `tryRecoverMultipleJson` on a remaining text. -/
def braceSplitIndex (s : List Char) : Option Nat :=
  braceScan 0 0 s

/-- The `while (remaining.length > 0)` loop of `tryRecoverMultipleJson`, with fuel
standing in for the strictly decreasing remaining text.  Every `break` of the
source returns the objects collected so far. -/
def tryRecoverLoop {J : Type} (parse : List Char → Option J) : Nat → List Char → List J
  | 0, _ => []
  | fuel + 1, remaining =>
    if remaining.length = 0 then []
    else if remaining.headD ' ' ≠ '{' then []
    else
      match braceSplitIndex remaining with
      | none => []
      | some k =>
        match parse (remaining.take k) with
        | none => []
        | some o => o :: tryRecoverLoop parse fuel (jsTrim (remaining.drop k))

/-- `tryRecoverMultipleJson`: trim the input, then repeatedly split off the first
brace-balanced segment and parse it; stop at the first failure. -/
def tryRecoverMultipleJson {J : Type} (parse : List Char → Option J) (input : List Char) : List J :=
  let r := jsTrim input
  tryRecoverLoop parse (r.length + 1) r

/-- Decoding of one flushed event payload in `parseSSEStream`: `JSON.parse` it,
and on failure emit whatever the recovery pass finds (possibly nothing — the
frame is then logged and dropped, the stream continues). -/
def decodeEvent {J : Type} (parse : List Char → Option J) (buf : List Char) : List J :=
  match parse buf with
  | some o => [o]
  | none => tryRecoverMultipleJson parse buf

/-- End-to-end `parseSSEStream`: feed every inbound text chunk, flush at stream
end, and decode each flushed payload in order. -/
def parseSSEStream {J : Type} (parse : List Char → Option J) (chunks : List (List Char)) : List J :=
  let r := feedAll ⟨[], []⟩ chunks
  ((r.2 ++ finalizeSSE r.1).map (decodeEvent parse)).flatten

/-- A tiny concrete JSON-parser stand-in used to instantiate witnesses: it accepts
exactly the text `{}`. -/
def toyParse : List Char → Option Nat :=
  fun s => if s = ('{' :: '}' :: []) then some 1 else none

/- ===================== streaming success loop (GeminiApiClient.streamContentInternal, 2xx path) ===================== -/

/-- JavaScript truthiness of an optional string field (`undefined` and `""` are falsy). -/
def truthyStr : Option String → Bool
  | none => false
  | some s => !(s == "")

/-- One `parts` entry of a decoded upstream frame
(`response.candidates[0].content.parts[i]`), per the wire contract exactly one of
a text part, a function call, or a function-response echo, each optionally
carrying a `thoughtSignature`. -/
inductive GPart
  | text (s : String) (thought : Bool) (thoughtSignature : Option String)
  | functionCall (name : String) (argsJson : String) (thoughtSignature : Option String)
  | functionResponse (thoughtSignature : Option String)
deriving DecidableEq, Repr

/-- `response.usageMetadata` of a frame; every field may be absent (`?? 0` in the source). -/
structure GUsageMetadata where
  promptTokenCount : Option Nat
  candidatesTokenCount : Option Nat
  thoughtsTokenCount : Option Nat
deriving DecidableEq, Repr

/-- One decoded SSE frame as consumed by the stream loop: the candidate parts
(`[]` when `candidates[0].content.parts` is absent) and optional usage metadata. -/
structure GFrame where
  parts : List GPart
  usageMetadata : Option GUsageMetadata
deriving DecidableEq, Repr

/-- One `tool_calls` entry of an emitted delta.  The source generates
`call_<uuid>` ids; uuid generation is modelled by the per-stream call counter,
which preserves freshness of ids within a stream. -/
structure ToolCallDelta where
  index : Nat
  id : Nat
  name : String
  argumentsJson : String
deriving DecidableEq, Repr

/-- An OpenAI stream delta.  `content := some none` models an explicit JSON `null`
content (set on a first chunk that is a tool call). -/
structure StreamDelta where
  role : Option String := none
  content : Option (Option String) := none
  reasoning : Option String := none
  tool_calls : Option (List ToolCallDelta) := none
deriving DecidableEq, Repr

/-- The final-chunk usage summary (`prompt_tokens`/`completion_tokens`/`total_tokens`). -/
structure UsageData where
  prompt_tokens : Nat
  completion_tokens : Nat
  total_tokens : Nat
deriving DecidableEq, Repr

/-- An emitted OpenAI stream chunk.  The constant metadata fields of the source
(`id`, `object`, `created`, `model`) carry no claim-relevant information and are
omitted. -/
structure StreamChunk where
  delta : StreamDelta
  finish_reason : Option String
  usage : Option UsageData
deriving DecidableEq, Repr

/-- `createOpenAIChunk`: wrap a delta (usage is always `null` here and only set on
the final chunk afterwards). -/
def createOpenAIChunk (delta : StreamDelta) (finishReason : Option String) : StreamChunk :=
  { delta := delta, finish_reason := finishReason, usage := none }

/-- Engine-instance state of `GeminiApiClient` relevant to the claims: the
`firstChunk` flag, the cached `_lastThoughtSignature`, and the cached `projectId`. -/
structure EngineSt where
  firstChunk : Bool
  lastThoughtSignature : Option String
  projectId : Option String
deriving DecidableEq, Repr

/-- Local variables of one `streamContentInternal` streaming pass:
`toolCallId` (last generated call id), accumulated `usageData`,
`reasoningTokens`, and the per-stream `toolCallIndex`. -/
structure StreamLocals where
  toolCallId : Option Nat
  usageData : Option UsageData
  reasoningTokens : Nat
  toolCallIndex : Nat
deriving DecidableEq, Repr

/-- `if (part.thoughtSignature) this._lastThoughtSignature = part.thoughtSignature`:
overwrite the cached signature only when the part carries a truthy one. -/
def updateSig (sig cur : Option String) : Option String :=
  if truthyStr sig then sig else cur

/-- Processing of one frame part by the stream loop: text parts (reasoning or
content) and function calls emit one chunk each (the very first emitted chunk
carries the `assistant` role marker and clears `firstChunk`); function-response
echoes emit nothing; all three update the cached thought signature.
The omega-tool interception and the `shell`-argument rewrite of the source only
transform the opaque `argsJson` payload and are not modelled. -/
def processPart (eng : EngineSt) (loc : StreamLocals) : GPart → EngineSt × StreamLocals × List StreamChunk
  | .text s thought sig =>
    let delta0 : StreamDelta :=
      if thought then { reasoning := some s } else { content := some (some s) }
    let delta := if eng.firstChunk then { delta0 with role := some "assistant" } else delta0
    let eng := if eng.firstChunk then { eng with firstChunk := false } else eng
    let eng := { eng with lastThoughtSignature := updateSig sig eng.lastThoughtSignature }
    (eng, loc, [createOpenAIChunk delta none])
  | .functionCall name args sig =>
    let callId := loc.toolCallIndex
    let loc := { loc with toolCallId := some callId }
    let delta0 : StreamDelta :=
      { tool_calls := some [{ index := loc.toolCallIndex, id := callId,
                              name := name, argumentsJson := args }] }
    let delta :=
      if eng.firstChunk then { delta0 with role := some "assistant", content := some none }
      else delta0
    let eng := if eng.firstChunk then { eng with firstChunk := false } else eng
    let loc := { loc with toolCallIndex := loc.toolCallIndex + 1 }
    let eng := { eng with lastThoughtSignature := updateSig sig eng.lastThoughtSignature }
    (eng, loc, [createOpenAIChunk delta none])
  | .functionResponse sig =>
    ({ eng with lastThoughtSignature := updateSig sig eng.lastThoughtSignature }, loc, [])

/-- Fold `processPart` over the parts of one frame, in order. -/
def processParts (eng : EngineSt) (loc : StreamLocals) : List GPart → EngineSt × StreamLocals × List StreamChunk
  | [] => (eng, loc, [])
  | p :: ps =>
    let r := processPart eng loc p
    let r' := processParts r.1 r.2.1 ps
    (r'.1, r'.2.1, r.2.2 ++ r'.2.2)

/-- `if (jsonData.response?.usageMetadata) { ... }`: overwrite the accumulated
usage data (and separately-reported reasoning tokens) from a frame. -/
def applyUsage (loc : StreamLocals) : Option GUsageMetadata → StreamLocals
  | none => loc
  | some u =>
    let p := u.promptTokenCount.getD 0
    let c := u.candidatesTokenCount.getD 0
    let t := u.thoughtsTokenCount.getD 0
    { loc with reasoningTokens := t,
               usageData := some { prompt_tokens := p, completion_tokens := c,
                                   total_tokens := p + c } }

/-- The `for await (const jsonData of parseSSEStream(...))` loop over decoded frames. -/
def processFrames (eng : EngineSt) (loc : StreamLocals) : List GFrame → EngineSt × StreamLocals × List StreamChunk
  | [] => (eng, loc, [])
  | f :: fs =>
    let r := processParts eng loc f.parts
    let l1 := applyUsage r.2.1 f.usageMetadata
    let r' := processFrames r.1 l1 fs
    (r'.1, r'.2.1, r.2.2 ++ r'.2.2)

/-- The closing chunk: finish reason `tool_calls` iff a tool call occurred
(the source's extra `thoughtSignature` override can only re-affirm `tool_calls`),
with the accumulated usage, folding a positive reasoning-token count into the
completion and total counts. -/
def finalChunkOf (eng : EngineSt) (loc : StreamLocals) : StreamChunk :=
  let fr0 := if loc.toolCallId.isSome then "tool_calls" else "stop"
  let fr := if loc.toolCallId.isSome ∧ eng.lastThoughtSignature.isSome ∧ fr0 = "stop"
            then "tool_calls" else fr0
  let base := createOpenAIChunk {} (some fr)
  match loc.usageData with
  | none => base
  | some u =>
    let u := if loc.reasoningTokens > 0
             then { u with completion_tokens := u.completion_tokens + loc.reasoningTokens,
                           total_tokens := u.total_tokens + loc.reasoningTokens }
             else u
    { base with usage := some u }

/-- The fresh per-request local variables at the start of one streaming pass. -/
def initLocals : StreamLocals :=
  { toolCallId := none, usageData := none, reasoningTokens := 0, toolCallIndex := 0 }

/-- The whole 2xx streaming pass body (continued): process every decoded frame
starting from fresh locals, then emit the closing chunk. -/
def streamSuccess (eng : EngineSt) (frames : List GFrame) : EngineSt × List StreamChunk :=
  let r := processFrames eng initLocals frames
  (r.1, r.2.2 ++ [finalChunkOf r.1 r.2.1])

/- ------------- specification helpers about frame sequences ------------- -/

/-- Whether a part is a function call. -/
def isFunctionCallPart : GPart → Bool
  | .functionCall .. => true
  | _ => false

/-- Whether any frame of a stream contains a function-call part. -/
def hasFunctionCall (fs : List GFrame) : Bool :=
  fs.any (fun f => f.parts.any isFunctionCallPart)

/-- The `thoughtSignature` field of a part. -/
def partSig : GPart → Option String
  | .text _ _ s => s
  | .functionCall _ _ s => s
  | .functionResponse s => s

/-- All truthy (non-empty) thought signatures of a part list, in order. -/
def truthySigsOfParts (ps : List GPart) : List String :=
  ps.filterMap (fun p => match partSig p with
    | some s => if s = "" then none else some s
    | none => none)

/-- All truthy thought signatures of a frame sequence, in order. -/
def truthySigs (fs : List GFrame) : List String :=
  (fs.map (fun f => truthySigsOfParts f.parts)).flatten

/-- Whether a part makes the stream loop emit a chunk (text and function-call
parts do, function-response echoes do not). -/
def emittingPart : GPart → Bool
  | .functionResponse _ => false
  | _ => true

/-- The number of chunk-emitting parts (text or function call) of a frame sequence. -/
def countEmits (fs : List GFrame) : Nat :=
  ((fs.map (fun f => f.parts.filter emittingPart)).flatten).length

/-- The usage metadata of the last frame carrying one (later frames overwrite earlier ones). -/
def lastUsageMeta (fs : List GFrame) : Option GUsageMetadata :=
  fs.foldl (fun acc f => match f.usageMetadata with | some u => some u | none => acc) none

/-- The role markers of an emitted chunk sequence. -/
def rolesOf (out : List StreamChunk) : List (Option String) :=
  out.map (fun c => c.delta.role)

/- ===================== request mapper (openai-mapper.ts, tool-message branch) ===================== -/

/-- One `tool_calls` entry of a previous assistant message, as the mapper sees it. -/
structure OToolCall where
  id : String
  name : String
  argumentsJson : String
deriving DecidableEq, Repr

/-- A part of a mapped upstream request message. -/
inductive GReqPart
  | functionResponse (name : String) (resultJson : String) (thoughtSignature : Option String)
deriving DecidableEq, Repr

/-- A mapped upstream request message. -/
structure GReqMessage where
  role : String
  parts : List GReqPart
deriving DecidableEq, Repr

/-- `mapOpenAIMessageToGeminiFormat`, `msg.role === "tool"` branch: look up the
original tool call by id in the previous message's `tool_calls` (name falls back
to `"unknown"`), and attach the engine's cached `lastThoughtSignature` to the
`functionResponse` part when it is truthy (the conditional spread
`...(lastThoughtSignature && { thoughtSignature: lastThoughtSignature })`). -/
def mapToolMessageToGeminiFormat (prevToolCalls : List OToolCall) (toolCallId : String)
    (content : String) (lastThoughtSignature : Option String) : GReqMessage :=
  let originalName :=
    match prevToolCalls.find? (fun tc => tc.id == toolCallId) with
    | some tc => tc.name
    | none => "unknown"
  { role := "user",
    parts := [.functionResponse originalName content
                (if truthyStr lastThoughtSignature then lastThoughtSignature else none)] }

/-- The `thoughtSignature` attached to a mapped request part. -/
def sigOfReqPart : GReqPart → Option String
  | .functionResponse _ _ s => s

/- ===================== time-based reset (OAuthRotator.shouldResetIndex) ===================== -/

/-- Civil date (year, month 1..12, day 1..31) of a count of days since 1970-01-01,
by the standard days-from-civil inversion over 400-year eras; all divisions are
floor divisions. -/
def civilFromDays (z0 : Int) : Int × Int × Int :=
  let z := z0 + 719468
  let era := Int.fdiv z 146097
  let doe := z - era * 146097
  let yoe := Int.fdiv (doe - Int.fdiv doe 1460 + Int.fdiv doe 36524 - Int.fdiv doe 146096) 365
  let y := yoe + era * 400
  let doy := doe - (365 * yoe + Int.fdiv yoe 4 - Int.fdiv yoe 100)
  let mp := Int.fdiv (5 * doy + 2) 153
  let d := doy - Int.fdiv (153 * mp + 2) 5 + 1
  let m := mp + (if mp < 10 then 3 else -9)
  (if m ≤ 2 then y + 1 else y, m, d)

/-- `Date.prototype.getHours` of a wall-clock instant given in milliseconds. -/
def hourOfMs (t : Int) : Int :=
  Int.fdiv (Int.emod t 86400000) 3600000

/-- Civil date of a wall-clock instant given in milliseconds. -/
def civilOfMs (t : Int) : Int × Int × Int :=
  civilFromDays (Int.fdiv t 86400000)

/-- Reset configuration of the rotator: `resetTimezoneOffset` (hours from GMT)
and `resetHour` (hour of day). -/
structure ResetCfg where
  resetTimezoneOffset : Int
  resetHour : Int
deriving DecidableEq, Repr

/-- The condition of `OAuthRotator.shouldResetIndex`.  `hostTzOffsetMin` is the
value of JavaScript `Date.prototype.getTimezoneOffset` ((UTC − local) minutes of
the host).  The source shifts `now` by the host offset and then by the configured
offset, so its getters display `now + resetTimezoneOffset hours` (the host offset
cancels); but `lastReset` is read through plain getters, which display
`lastResetTime − hostTzOffsetMin minutes`, i.e. the host-local calendar day. -/
def shouldResetIndexFires (nowMs hostTzOffsetMin : Int) (cfg : ResetCfg)
    (lastResetTime : Int) : Bool :=
  let localNowMs := nowMs + cfg.resetTimezoneOffset * 3600000
  let lastResetLocalMs := lastResetTime - hostTzOffsetMin * 60000
  let c := civilOfMs localNowMs
  let l := civilOfMs lastResetLocalMs
  decide (hourOfMs localNowMs = cfg.resetHour ∧
    (c.2.2 ≠ l.2.2 ∨ c.2.1 ≠ l.2.1 ∨ c.1 ≠ l.1))

/-- Modelled from the spec: "if the local hour matches and the calendar day
differs from the last reset's day (in that timezone)" — both the current day and
the last reset's day computed in the configured timezone offset.  Comparison
definition for the refinement check of claim C6. -/
def specShouldResetIndexFires (nowMs : Int) (cfg : ResetCfg) (lastResetTime : Int) : Bool :=
  let localNowMs := nowMs + cfg.resetTimezoneOffset * 3600000
  let lastLocalMs := lastResetTime + cfg.resetTimezoneOffset * 3600000
  decide (hourOfMs localNowMs = cfg.resetHour ∧ civilOfMs localNowMs ≠ civilOfMs lastLocalMs)

/- ===================== the rotator (OAuthRotator) ===================== -/

/-- Rotator state.  `blacklist` records the accounts marked degraded (see
`blacklistAccount`). -/
structure RotSt where
  credentialFilePaths : List String
  currentIndex : Nat
  isEnabled : Bool
  allAccountsExhausted : Bool
  lastResetTime : Int
  cfg : ResetCfg
  blacklist : List String
deriving DecidableEq, Repr

/-- `OAuthRotator.shouldResetIndex`: when the reset condition fires, reset the
index to 0, stamp `lastResetTime`, and clear the exhaustion flag. -/
def shouldResetIndex (nowMs hostTzOffsetMin : Int) (rot : RotSt) : Bool × RotSt :=
  if shouldResetIndexFires nowMs hostTzOffsetMin rot.cfg rot.lastResetTime then
    (true, { rot with currentIndex := 0, lastResetTime := nowMs, allAccountsExhausted := false })
  else (false, rot)

/-- `OAuthRotator.isRotationEnabled`. -/
def isRotationEnabled (rot : RotSt) : Bool :=
  rot.isEnabled && decide (rot.credentialFilePaths.length > 1)

/-- `OAuthRotator.getCurrentAccountPath`. -/
def getCurrentAccountPath (rot : RotSt) : Option String :=
  if !rot.isEnabled || rot.credentialFilePaths.isEmpty then none
  else rot.credentialFilePaths.get? rot.currentIndex

/-- Modelled from the spec: the client calls `OAuthRotator.blacklistAccount` on a
403 ("mark the current account degraded/blacklisted"), but that method is absent
from the rotator source in this repository; following the spec's words it records
the degraded account (once per call) in a degraded-accounts list. -/
def blacklistAccount (rot : RotSt) (accountPath : String) : RotSt :=
  { rot with blacklist := rot.blacklist ++ [accountPath] }

/-- Parsed content of a credential JSON file. -/
structure CredJson where
  access_token : Option String
  refresh_token : Option String
  client_id : Option String
  client_secret : Option String
deriving DecidableEq, Repr

/-- Content of a file as the model sees it: a JSON credential bag, some other
parseable JSON document, or unparsable bytes. -/
inductive FileData
  | credObj (c : CredJson)
  | otherJson
  | malformedJson
deriving DecidableEq, Repr

/-- A file system: the association of present paths to their contents. -/
abbrev FS := List (String × FileData)

/-- Read a file (`none` when the path is absent). -/
def fsRead (fs : FS) (p : String) : Option FileData :=
  (fs.find? (fun e => e.1 == p)).map (fun e => e.2)

/-- Write (create or overwrite) a file. -/
def fsWrite (fs : FS) (p : String) (d : FileData) : FS :=
  (p, d) :: fs.filter (fun e => !(e.1 == p))

/-- The canonical active-credential cache location
(`getCachedCredentialPath()` and the rotator's default credential path). -/
def cachedCredentialPath : String := "HOME/.gemini/oauth_creds.json"

/-- The persistent project-identity cache file path (`getProjectCachePath()`). -/
def projectCachePath : String := "HOME/.gemini/project_cache.json"

/-- `OAuthRotator.validateCredentialFile`: read and parse the file (any failure
returns false) and require at least one truthy field among
`access_token || refresh_token || client_id || client_secret`. -/
def validateCredentialFile (fs : FS) (filePath : String) : Bool :=
  match fsRead fs filePath with
  | some (.credObj c) =>
    truthyStr c.access_token || truthyStr c.refresh_token ||
    truthyStr c.client_id || truthyStr c.client_secret
  | _ => false

/-- Modelled from the spec: "must contain at least one of: access token, refresh
token, client-id+secret pair" — comparison definition for the refinement check
of claim C7. -/
def specValidCredential (c : CredJson) : Bool :=
  truthyStr c.access_token || truthyStr c.refresh_token ||
  (truthyStr c.client_id && truthyStr c.client_secret)

/-- Failures `performRotation` can raise. -/
inductive RotError
  | invalidCredentialFile (path : String)
  | readFailed (path : String)
deriving DecidableEq, Repr

/-- `OAuthRotator.performRotation`: clear a pending exhaustion flag, advance the
index round-robin, flag exhaustion when the advance wraps to 0, validate the new
credential file (throwing on failure — the mutated rotator state persists across
the throw), and copy it to the canonical cache location. -/
def performRotation (fs : FS) (rot : RotSt) : Except (RotError × RotSt) (String × RotSt × FS) :=
  let rot := if rot.allAccountsExhausted then { rot with allAccountsExhausted := false } else rot
  let n := rot.credentialFilePaths.length
  let newIndex := (rot.currentIndex + 1) % n
  let rot := { rot with currentIndex := newIndex }
  let newCredentialPath := (rot.credentialFilePaths.get? newIndex).getD ""
  let rot := if newIndex = 0 then { rot with allAccountsExhausted := true } else rot
  if validateCredentialFile fs newCredentialPath = false then
    .error (.invalidCredentialFile newCredentialPath, rot)
  else
    match fsRead fs newCredentialPath with
    | some d => .ok (newCredentialPath, rot, fsWrite fs cachedCredentialPath d)
    | none => .error (.readFailed newCredentialPath, rot)

/-- `OAuthRotator.rotateCredentials`: `null` when rotation is disabled; otherwise
run the time-based reset check and perform the rotation.  The shared in-flight
promise only deduplicates concurrent callers and is a no-op in this sequential
model. -/
def rotateCredentials (nowMs hostTzOffsetMin : Int) (fs : FS) (rot : RotSt) :
    Except (RotError × RotSt) (Option String × RotSt × FS) :=
  if !isRotationEnabled rot then .ok (none, rot, fs)
  else
    let rot := (shouldResetIndex nowMs hostTzOffsetMin rot).2
    match performRotation fs rot with
    | .ok (p, rot, fs) => .ok (some p, rot, fs)
    | .error e => .error e

/- ============== the retry/rotation engine (GeminiApiClient.streamContentInternal) ============== -/

/-- The upstream's answer to one attempt: a successful stream of decoded frames,
an HTTP error with a status and body text, or a client-side timeout/abort
(mapped to a synthetic 408 by the source). -/
inductive UpResp
  | ok (frames : List GFrame)
  | httpError (status : Nat) (text : String)
  | netTimeout
deriving Repr

/-- The external environment of one engine call: the upstream response for each
attempt (indexed by the number of fetches made so far), the abstracted result of
the project-discovery RPC sequence, the outcome and result of
`refreshAccessToken`, and the clock/host-timezone parameters. -/
structure Env where
  up : Nat → UpResp
  discovery : Option String
  refreshOk : Bool
  refreshed : CredJson
  nowMs : Int
  hostTzOffsetMin : Int

/-- The pending upstream request body: the model id and the mutable project field
the engine overwrites after a rotation. -/
structure GRequest where
  model : String
  project : Option String
deriving DecidableEq, Repr

/-- Category of a `GeminiApiError` message. -/
inductive ErrKind
  | streamFailed
  | timedOut
  | exhausted (accountCount : Nat)
deriving DecidableEq, Repr

/-- A `GeminiApiError`: message category, `statusCode`, `responseText`. -/
structure GErr where
  kind : ErrKind
  statusCode : Nat
  responseText : String
deriving DecidableEq, Repr

/-- An exception caught by the `catch (rotationError)` handler: either a
`GeminiApiError` or some other exception (failed reload, rotation failure). -/
inductive CaughtErr
  | api (e : GErr)
  | other
deriving DecidableEq, Repr

/-- The mutable world of one engine call: engine-instance state, the (singleton)
rotator, the file system, the number of upstream fetches made, and the errors
swallowed by the rotation-failure catch handler. -/
structure World where
  eng : EngineSt
  rot : RotSt
  fs : FS
  attempts : Nat
  swallowed : List CaughtErr
deriving DecidableEq, Repr

/-- JavaScript object spread `{ ...existing, ...refreshed }` on credential bags
(fields present on `refreshed` win). -/
def mergeCred (existing refreshed : CredJson) : CredJson :=
  { access_token := refreshed.access_token <|> existing.access_token,
    refresh_token := refreshed.refresh_token <|> existing.refresh_token,
    client_id := refreshed.client_id <|> existing.client_id,
    client_secret := refreshed.client_secret <|> existing.client_secret }

/-- `GeminiApiClient.reloadCredentials`: read and parse the canonical credential
cache (a failure rethrows: `none`); clear the cached `projectId`; force a token
refresh (its failure is logged and ignored) and on success write the refreshed
credentials to the cache and merge them back into the source file (that
write-back failure is also ignored).  No file is ever deleted. -/
def reloadCredentials (env : Env) (w : World) (sourceFilePath : Option String) : Option World :=
  match fsRead w.fs cachedCredentialPath with
  | none => none
  | some .malformedJson => none
  | some _ =>
    let w := { w with eng := { w.eng with projectId := none } }
    if env.refreshOk then
      let fs := fsWrite w.fs cachedCredentialPath (.credObj env.refreshed)
      let fs :=
        match sourceFilePath with
        | some src =>
          match fsRead fs src with
          | some (.credObj existing) => fsWrite fs src (.credObj (mergeCred existing env.refreshed))
          | _ => fs
        | none => fs
      some { w with fs := fs }
    else
      some w

/-- The sentinel normalization of `discoverProjectId`: a discovered
`"default-project"` is treated as no project. -/
def normalizeProjectId (p : Option String) : Option String :=
  if p = some "default-project" then none else p

/-- `GeminiApiClient.discoverProjectId`: a configured `googleCloudProject`
override short-circuits; else a cached `projectId` is returned; else the
`loadCodeAssist`/`onboardUser` RPC sequence runs (abstracted into
`env.discovery`; every branch normalizes the sentinel, and any failure yields
`null` rather than throwing) and its result is cached. -/
def discoverProjectId (googleCloudProject : Option String) (env : Env) (eng : EngineSt) :
    Option String × EngineSt :=
  match googleCloudProject with
  | some p => (some p, eng)
  | none =>
    match eng.projectId with
    | some p => (some p, eng)
    | none =>
      let pid := normalizeProjectId env.discovery
      (pid, { eng with projectId := pid })

/-- Result of one engine call. -/
inductive SResult
  | success (chunks : List StreamChunk)
  | failure (e : GErr)
  | fuelOut
deriving DecidableEq, Repr

/-- The 403 pre-rotation step of `streamContentInternal`: mark the current
account degraded (see `blacklistAccount`, modelled from the spec) before
rotating; on any other status the world is untouched. -/
def blacklist403 (status : Nat) (w : World) : World :=
  if status = 403 then
    match getCurrentAccountPath w.rot with
    | some acc => { w with rot := blacklistAccount w.rot acc }
    | none => w
  else w

/-- The rotation branch of `streamContentInternal` on a retryable status
(429/403/504 with rotation enabled and retry budget left), with the recursive
retry abstracted as `recur`: blacklist the account on 403 (`blacklist403`);
then, inside one `try` whose `catch (rotationError)` swallows *everything*
thrown within — including the accounts-exhausted error constructed in the
inner catch — rotate, reload the credentials, re-discover the project id,
patch the pending request, and retry; finally throw the generic terminal
error for *this* level's status. -/
def rotationRetry (env : Env) (gp : Option String)
    (recur : World → GRequest → Nat → SResult × World)
    (status : Nat) (errorText : String)
    (w : World) (req : GRequest) (retryCount : Nat) : SResult × World :=
  let genericError : GErr :=
    { kind := if status = 408 then .timedOut else .streamFailed,
      statusCode := status, responseText := errorText }
  let w := blacklist403 status w
  match rotateCredentials env.nowMs env.hostTzOffsetMin w.fs w.rot with
  | .error (_, rot') =>
    -- rotation threw: caught, logged, fall through to the generic terminal error
    (.failure genericError, { w with rot := rot', swallowed := w.swallowed ++ [.other] })
  | .ok (none, rot', fs') =>
    -- rotate() returned null: no retry, the generic terminal error is thrown
    (.failure genericError, { w with rot := rot', fs := fs' })
  | .ok (some rotatedPath, rot', fs') =>
    let w := { w with rot := rot', fs := fs' }
    match reloadCredentials env w (some rotatedPath) with
    | none =>
      -- reload threw: caught by the rotation catch handler, then the generic error
      (.failure genericError, { w with swallowed := w.swallowed ++ [.other] })
    | some w' =>
      let d := discoverProjectId gp env w'.eng
      let w' := { w' with eng := d.2 }
      let req' := match d.1 with
                  | some pid => { req with project := some pid }
                  | none => req
      match recur w' req' (retryCount + 1) with
      | (.success out, w2) => (.success out, w2)
      | (.fuelOut, w2) => (.fuelOut, w2)
      | (.failure retryError, w2) =>
        -- inner catch: at the retry-budget boundary replace the error with the
        -- accounts-exhausted error, else rethrow; either way the outer
        -- rotation catch swallows it and the generic error is thrown
        let thrown : GErr :=
          if retryCount + 1 ≥ w2.rot.credentialFilePaths.length then
            { kind := .exhausted w2.rot.credentialFilePaths.length,
              statusCode := status, responseText := errorText }
          else retryError
        (.failure genericError,
         { w2 with swallowed := w2.swallowed ++ [.api thrown] })

/-- `GeminiApiClient.streamContentInternal` (error/retry skeleton; the 2xx path
is `streamSuccess`, the rotation branch is `rotationRetry`).  The recursion of
the source is bounded by the `retryCount < accountCount` guard; `fuel` makes
that recursion structural, and `.fuelOut` marks an artificial out-of-fuel stop
(never reached with enough fuel). -/
def streamContentInternal (env : Env) (googleCloudProject : Option String) :
    Nat → World → GRequest → Nat → SResult × World
  | 0, w, _, _ => (.fuelOut, w)
  | fuel + 1, w, req, retryCount =>
    let attemptIndex := w.attempts
    let w := { w with attempts := attemptIndex + 1 }
    match env.up attemptIndex with
    | .netTimeout => (.failure { kind := .timedOut, statusCode := 408, responseText := "" }, w)
    | .ok frames =>
      let r := streamSuccess w.eng frames
      (.success r.2, { w with eng := r.1 })
    | .httpError status text =>
      let errorText := if status = 408 then "Request Timeout" else text
      if status = 401 ∧ retryCount = 0 then
        -- force refresh: the cleared in-memory access token lives on the external OAuth handle
        streamContentInternal env googleCloudProject fuel w req (retryCount + 1)
      else
        let genericError : GErr :=
          { kind := if status = 408 then .timedOut else .streamFailed,
            statusCode := status, responseText := errorText }
        if (status = 429 ∨ status = 403 ∨ status = 504)
            ∧ retryCount < w.rot.credentialFilePaths.length
            ∧ isRotationEnabled w.rot = true then
          rotationRetry env googleCloudProject
            (streamContentInternal env googleCloudProject fuel)
            status errorText w req retryCount
        else
          (.failure genericError, w)

/- ===================== proof-infrastructure and scenario definitions ===================== -/

/-- Character-at-a-time equivalent of the line assembly of `parseSSEStream`
(used to prove the re-chunking invariance): maintain the current incomplete
line; a line feed completes it and runs `processLine`. -/
def charFeed (line ob : List Char) : List Char → List Char × List Char × List (List Char)
  | [] => (line, ob, [])
  | c :: cs =>
    if c = '\n' then
      let r := processLine ob line
      let r' := charFeed [] r.1 cs
      (r'.1, r'.2.1, r.2 ++ r'.2.2)
    else charFeed (line ++ [c]) ob cs

/-- Last-write-wins fold of a signature list over an initial cached signature. -/
def lastSigFold (init : Option String) (sigs : List String) : Option String :=
  sigs.foldl (fun _ s => some s) init

/-- A credential bag that passes both the source validation and the
spec-worded validation. -/
def validCred : CredJson :=
  { access_token := some "tok", refresh_token := none, client_id := none, client_secret := none }

/-- A reset configuration that can never fire (the hour of day is never `-1`);
used by scenarios that keep time frozen. -/
def noResetCfg : ResetCfg := { resetTimezoneOffset := 0, resetHour := -1 }

/-- Rotator state over a given pool, rotation enabled, cursor at 0. -/
def scenarioRot (paths : List String) : RotSt :=
  { credentialFilePaths := paths, currentIndex := 0, isEnabled := true,
    allAccountsExhausted := false, lastResetTime := 0, cfg := noResetCfg, blacklist := [] }

/-- A file system holding one valid credential file per pool entry. -/
def scenarioFs (paths : List String) : FS :=
  paths.map (fun p => (p, FileData.credObj validCred))

/-- A freshly constructed engine instance. -/
def freshEngine : EngineSt :=
  { firstChunk := true, lastThoughtSignature := none, projectId := none }

/-- Initial world of an engine call over a given pool. -/
def scenarioWorld (paths : List String) : World :=
  { eng := freshEngine, rot := scenarioRot paths, fs := scenarioFs paths,
    attempts := 0, swallowed := [] }

/-- Environment in which every upstream attempt fails with the given status,
project discovery finds nothing, and the token refresh fails (logged and
ignored by `reloadCredentials`). -/
def scenarioEnv (s : Nat → Nat) : Env :=
  { up := fun k => .httpError (s k) "", discovery := none, refreshOk := false,
    refreshed := validCred, nowMs := 0, hostTzOffsetMin := 0 }

/-- A fixed request body for the retry scenarios. -/
def scenarioReq : GRequest := { model := "gemini-2.5-pro", project := none }

/-- The accounts the engine blacklists during a failing run that enters the
rotation branch at retry counts `r, r+1, …` until the pool size is reached:
account `k` is recorded exactly when attempt `a + (k - r)` returned 403. -/
def blkAdds (s : Nat → Nat) (paths : List String) (a r : Nat) : List String :=
  if r < paths.length then
    (if s a = 403 then [(paths.get? r).getD ""] else []) ++ blkAdds s paths (a + 1) (r + 1)
  else []
termination_by paths.length - r
decreasing_by omega

/-- The errors swallowed by the rotation catch handlers during a failing run
over a pool of `n` accounts that enters the rotation branch at retry counts
`r, r+1, …` (first attempt index `a`, every status retryable): the deepest
level appends first; the level whose retry budget boundary is hit records the
accounts-exhausted error, every other level records the generic error its
retry surfaced. -/
def swAdds (s : Nat → Nat) (n a r : Nat) : List CaughtErr :=
  if r < n then
    swAdds s n (a + 1) (r + 1) ++
    [.api (if r + 1 ≥ n then ⟨.exhausted n, s a, ""⟩
           else ⟨.streamFailed, s (a + 1), ""⟩)]
  else []
termination_by n - r
decreasing_by omega

/- ===================== theorems: SSE parser ===================== -/

theorem splitNl_ne_nil (s : List Char) : splitNl s ≠ [] := by
  induction s with
  | nil => simp [splitNl]
  | cons c cs ih =>
    simp only [splitNl]
    split
    · simp
    · split
      · simp
      · simp

theorem splitNl_no_nl (s : List Char) (h : '\n' ∉ s) : splitNl s = [s] := by
  induction s with
  | nil => simp [splitNl]
  | cons c cs ih =>
    have hc : c ≠ '\n' := by
      intro hc; exact h (by simp [hc])
    have hcs : '\n' ∉ cs := fun hm => h (List.mem_cons_of_mem _ hm)
    simp only [splitNl, if_neg hc, ih hcs]

theorem splitNl_append_nl (line cs : List Char) (h : '\n' ∉ line) :
    splitNl (line ++ '\n' :: cs) = line :: splitNl cs := by
  induction line with
  | nil => simp [splitNl]
  | cons c l ih =>
    have hc : c ≠ '\n' := by
      intro hc; exact h (by simp [hc])
    have hl : '\n' ∉ l := fun hm => h (List.mem_cons_of_mem _ hm)
    have hstep : (c :: l) ++ '\n' :: cs = c :: (l ++ '\n' :: cs) := rfl
    rw [hstep]
    simp only [splitNl, if_neg hc]
    rw [ih hl]

theorem feedChunk_shift (b ob : List Char) (b' ch ch' : List Char)
    (h : b ++ ch = b' ++ ch') :
    feedChunk ⟨b, ob⟩ ch = feedChunk ⟨b', ob⟩ ch' := by
  simp only [feedChunk, h]

theorem charFeed_eq_feedChunk (s : List Char) : ∀ (line ob : List Char), '\n' ∉ line →
    feedChunk ⟨line, ob⟩ s =
      (⟨(charFeed line ob s).1, (charFeed line ob s).2.1⟩, (charFeed line ob s).2.2) := by
  induction s with
  | nil =>
    intro line ob h
    have hsp : splitNl (line ++ []) = [line] := by
      rw [List.append_nil]; exact splitNl_no_nl line h
    simp only [feedChunk, charFeed, hsp, List.dropLast_single, processLines]
    rfl
  | cons c cs ih =>
    intro line ob h
    by_cases hc : c = '\n'
    · subst hc
      rcases hq : splitNl cs with _ | ⟨q, qs⟩
      · exact absurd hq (splitNl_ne_nil cs)
      · have hIH := ih [] (processLine ob line).1 (by simp)
        rcases hcf : charFeed [] (processLine ob line).1 cs with ⟨l1, ob1, es1⟩
        simp only [hcf] at hIH
        have hf0 : feedChunk ⟨[], (processLine ob line).1⟩ cs =
            (⟨qs.getLastD q, (processLines (processLine ob line).1 ((q :: qs).dropLast)).1⟩,
             (processLines (processLine ob line).1 ((q :: qs).dropLast)).2) := by
          simp only [feedChunk, List.nil_append, hq, List.getLastD_cons]
        rw [hf0] at hIH
        have e1 : qs.getLastD q = l1 := congrArg (fun x => x.1.buffer) hIH
        have e2 : (processLines (processLine ob line).1 ((q :: qs).dropLast)).1 = ob1 :=
          congrArg (fun x => x.1.objectBuffer) hIH
        have e3 : (processLines (processLine ob line).1 ((q :: qs).dropLast)).2 = es1 :=
          congrArg (fun x => x.2) hIH
        have hR : charFeed line ob ('\n' :: cs) = (l1, ob1, (processLine ob line).2 ++ es1) := by
          simp [charFeed, hcf]
        have hsp : splitNl (line ++ '\n' :: cs) = line :: q :: qs := by
          rw [splitNl_append_nl line cs h, hq]
        have hL : feedChunk ⟨line, ob⟩ ('\n' :: cs) =
            (⟨qs.getLastD q, (processLines (processLine ob line).1 ((q :: qs).dropLast)).1⟩,
             (processLine ob line).2 ++ (processLines (processLine ob line).1 ((q :: qs).dropLast)).2) := by
          simp only [feedChunk, hsp, List.dropLast_cons₂, List.getLastD_cons, processLines]
        rw [hL, hR, e1, e2, e3]
    · have hl : '\n' ∉ line ++ [c] := by
        intro hm
        rcases List.mem_append.mp hm with hm | hm
        · exact h hm
        · simp at hm; exact hc hm.symm
      have step : feedChunk ⟨line, ob⟩ (c :: cs) = feedChunk ⟨line ++ [c], ob⟩ cs :=
        feedChunk_shift _ _ _ _ _ (by simp)
      rw [step, ih (line ++ [c]) ob hl]
      simp only [charFeed, if_neg hc]

theorem charFeed_append (a : List Char) : ∀ (b line ob : List Char),
    charFeed line ob (a ++ b) =
      ((charFeed (charFeed line ob a).1 (charFeed line ob a).2.1 b).1,
       (charFeed (charFeed line ob a).1 (charFeed line ob a).2.1 b).2.1,
       (charFeed line ob a).2.2 ++
         (charFeed (charFeed line ob a).1 (charFeed line ob a).2.1 b).2.2) := by
  induction a with
  | nil => intro b line ob; simp [charFeed]
  | cons c cs ih =>
    intro b line ob
    by_cases hc : c = '\n'
    · subst hc
      simp [charFeed, ih, List.append_assoc]
    · simp [charFeed, if_neg hc, ih]

theorem charFeed_no_nl (s : List Char) : ∀ (line ob : List Char), '\n' ∉ line →
    '\n' ∉ (charFeed line ob s).1 := by
  induction s with
  | nil => intro line ob h; simpa [charFeed] using h
  | cons c cs ih =>
    intro line ob h
    by_cases hc : c = '\n'
    · subst hc
      simp only [charFeed, if_pos rfl]
      exact ih [] (processLine ob line).1 (by simp)
    · simp only [charFeed, if_neg hc]
      refine ih (line ++ [c]) ob ?_
      intro hm
      rcases List.mem_append.mp hm with hm | hm
      · exact h hm
      · simp at hm; exact hc hm.symm

theorem feedAll_eq_charFeed (cs : List (List Char)) : ∀ (line ob : List Char), '\n' ∉ line →
    feedAll ⟨line, ob⟩ cs =
      (⟨(charFeed line ob cs.flatten).1, (charFeed line ob cs.flatten).2.1⟩,
       (charFeed line ob cs.flatten).2.2) := by
  induction cs with
  | nil => intro line ob h; simp [feedAll, charFeed]
  | cons c cs ih =>
    intro line ob h
    have h1 := charFeed_eq_feedChunk c line ob h
    have h2 := ih (charFeed line ob c).1 (charFeed line ob c).2.1 (charFeed_no_nl c line ob h)
    simp only [feedAll, h1, h2, List.flatten_cons, charFeed_append c cs.flatten line ob]

/-- C8: the SSE frame parser is invariant under re-chunking of its input: feeding
any chunk sequence yields the same decoded object sequence as feeding the whole
concatenated text as one chunk.  (`parse` is the external `JSON.parse`, arbitrary
here.) -/
theorem c8_sse_rechunking_invariant {J : Type} (parse : List Char → Option J)
    (chunks : List (List Char)) :
    parseSSEStream parse chunks = parseSSEStream parse [chunks.flatten] := by
  have h1 := feedAll_eq_charFeed chunks [] [] (by simp)
  have h2 := feedAll_eq_charFeed [chunks.flatten] [] [] (by simp)
  simp only [List.flatten_cons, List.flatten_nil, List.append_nil] at h2
  simp only [parseSSEStream, h1, h2]

/- ===================== theorems: malformed-frame recovery ===================== -/

theorem braceScan_append (s : List Char) : ∀ (t : List Char) (bal : Int) (i n : Nat),
    braceScan bal i s = some n → braceScan bal i (s ++ t) = some n := by
  induction s with
  | nil => intro t bal i n h; simp [braceScan] at h
  | cons c cs ih =>
    intro t bal i n h
    rw [List.cons_append]
    simp only [braceScan] at h ⊢
    split_ifs at h ⊢ with hb
    all_goals first
      | exact h
      | exact ih t _ _ n h

theorem braceSplitIndex_append (s t : List Char) (n : Nat)
    (h : braceSplitIndex s = some n) : braceSplitIndex (s ++ t) = some n :=
  braceScan_append s t 0 0 n h

theorem tryRecoverLoop_nil {J : Type} (parse : List Char → Option J) (m : Nat) :
    tryRecoverLoop parse m [] = [] := by
  cases m with
  | zero => rfl
  | succ k => simp [tryRecoverLoop]

/-- C9: a flushed event payload that fails to parse as one JSON object does not
abort the stream — the recovery pass splits the text at the points where the
character-by-character brace depth returns to zero and parses each segment, so
two brace-balanced objects concatenated without a separating blank line are both
emitted, in order; and a frame on which recovery also finds nothing is dropped
(empty decode) rather than an error. -/
theorem c9_malformed_frame_recovery {J : Type} (parse : List Char → Option J)
    (s1 s2 : List Char) (o1 o2 : J)
    (hb1 : braceSplitIndex s1 = some s1.length)
    (hb2 : braceSplitIndex s2 = some s2.length)
    (hh1 : s1.headD ' ' = '{')
    (hh2 : s2.headD ' ' = '{')
    (hp1 : parse s1 = some o1)
    (hp2 : parse s2 = some o2)
    (htrim : jsTrim (s1 ++ s2) = s1 ++ s2)
    (htrim2 : jsTrim s2 = s2)
    (hfail : parse (s1 ++ s2) = none) :
    decodeEvent parse (s1 ++ s2) = [o1, o2] ∧
    tryRecoverMultipleJson parse (s1 ++ s2) = [o1, o2] ∧
    (∀ buf : List Char, parse buf = none → tryRecoverMultipleJson parse buf = [] →
      decodeEvent parse buf = []) := by
  have hs1ne : s1 ≠ [] := by
    intro he; rw [he] at hh1; simp at hh1
  have hs2ne : s2 ≠ [] := by
    intro he; rw [he] at hh2; simp at hh2
  have hlen1 : 0 < s1.length := List.length_pos.mpr hs1ne
  have hlen2 : 0 < s2.length := List.length_pos.mpr hs2ne
  have hheadcat : (s1 ++ s2).headD ' ' = '{' := by
    rcases s1 with _ | ⟨c, cs⟩
    · exact absurd rfl hs1ne
    · simpa using hh1
  have hb12 : braceSplitIndex (s1 ++ s2) = some s1.length :=
    braceSplitIndex_append s1 s2 s1.length hb1
  -- the loop on the full text, one unfolding
  obtain ⟨m, hm⟩ : ∃ m, s2.length = m + 1 := ⟨s2.length - 1, by omega⟩
  have step2 : ∀ fuel, tryRecoverLoop parse (fuel + 1) s2 = o2 :: tryRecoverLoop parse fuel [] := by
    intro fuel
    have h1 : ¬ s2.length = 0 := by omega
    have h2 : ¬ s2.headD ' ' ≠ '{' := by rw [hh2]; simp
    simp only [tryRecoverLoop, if_neg h1, if_neg h2, hb2, List.take_length, hp2,
      List.drop_length]
    rfl
  have hL : (s1 ++ s2).length = s1.length + s2.length := List.length_append s1 s2
  obtain ⟨f2, hf2⟩ : ∃ f, s1.length + s2.length = f + 1 := ⟨s1.length + s2.length - 1, by omega⟩
  have step1 : tryRecoverLoop parse ((s1 ++ s2).length + 1) (s1 ++ s2) =
      o1 :: tryRecoverLoop parse (s1.length + s2.length) s2 := by
    have h1 : ¬ (s1 ++ s2).length = 0 := by rw [hL]; omega
    have h2 : ¬ (s1 ++ s2).headD ' ' ≠ '{' := by rw [hheadcat]; simp
    have htake : (s1 ++ s2).take s1.length = s1 := List.take_left s1 s2
    have hdrop : (s1 ++ s2).drop s1.length = s2 := List.drop_left s1 s2
    simp only [tryRecoverLoop, if_neg h1, if_neg h2, hb12, htake, hp1, hdrop, htrim2, hL]
    rw [if_neg (show ¬ (s1.length + s2.length = 0) by omega)]
  have hrec : tryRecoverMultipleJson parse (s1 ++ s2) = [o1, o2] := by
    unfold tryRecoverMultipleJson
    rw [htrim, step1, hf2, step2, tryRecoverLoop_nil]
  refine ⟨?_, hrec, ?_⟩
  · unfold decodeEvent
    rw [hfail, hrec]
  · intro buf hp hr
    unfold decodeEvent
    rw [hp, hr]

/-- Witness for C9 at a concrete input: the payload `{}{}` under a parser that
accepts exactly `{}` recovers both objects. -/
theorem c9_malformed_frame_recovery_witness :
    decodeEvent toyParse (('{' :: '}' :: []) ++ ('{' :: '}' :: [])) = [1, 1] :=
  (c9_malformed_frame_recovery toyParse ('{' :: '}' :: []) ('{' :: '}' :: []) 1 1
    (by decide) (by decide) (by decide) (by decide) (by decide) (by decide)
    (by decide) (by decide) (by decide)).1

/- ===================== theorems: streaming success loop ===================== -/

theorem lastSigFold_append (init : Option String) (a b : List String) :
    lastSigFold init (a ++ b) = lastSigFold (lastSigFold init a) b := by
  simp [lastSigFold, List.foldl_append]

theorem lastSigFold_last (l : List String) : ∀ (init : Option String) (s : String),
    l.getLast? = some s → lastSigFold init l = some s := by
  induction l with
  | nil => intro init s h; simp at h
  | cons a l ih =>
    intro init s h
    cases l with
    | nil =>
      simp at h
      simp [lastSigFold, h]
    | cons b l' =>
      rw [List.getLast?_cons_cons] at h
      have : lastSigFold init (a :: b :: l') = lastSigFold (some a) (b :: l') := by
        simp [lastSigFold]
      rw [this]
      exact ih (some a) s h

theorem lastSigFold_isSome (l : List String) : ∀ (init : Option String),
    init.isSome = true → (lastSigFold init l).isSome = true := by
  induction l with
  | nil => intro init h; simpa [lastSigFold] using h
  | cons a l ih =>
    intro init _
    have : lastSigFold init (a :: l) = lastSigFold (some a) l := by simp [lastSigFold]
    rw [this]
    exact ih (some a) rfl

theorem updateSig_eq (p : GPart) (init : Option String) :
    updateSig (partSig p) init = lastSigFold init (truthySigsOfParts [p]) := by
  rcases hps : partSig p with _ | s
  · simp [updateSig, truthyStr, lastSigFold, truthySigsOfParts, hps]
  · by_cases hs : s = ""
    · simp [updateSig, truthyStr, hs, lastSigFold, truthySigsOfParts, hps]
    · simp [updateSig, truthyStr, hs, lastSigFold, truthySigsOfParts, hps]

theorem processPart_spec (p : GPart) (eng : EngineSt) (loc : StreamLocals) :
    (processPart eng loc p).2.1.usageData = loc.usageData ∧
    (processPart eng loc p).2.1.reasoningTokens = loc.reasoningTokens ∧
    ((processPart eng loc p).2.1.toolCallId.isSome
      = (loc.toolCallId.isSome || isFunctionCallPart p)) ∧
    (processPart eng loc p).1.lastThoughtSignature
      = lastSigFold eng.lastThoughtSignature (truthySigsOfParts [p]) ∧
    (processPart eng loc p).1.projectId = eng.projectId ∧
    (processPart eng loc p).2.2.length = ([p].filter emittingPart).length ∧
    (∀ c ∈ (processPart eng loc p).2.2, c.finish_reason = none ∧ c.usage = none) ∧
    (processPart eng loc p).1.firstChunk
      = (eng.firstChunk && ([p].filter emittingPart).isEmpty) ∧
    (eng.firstChunk = false →
      rolesOf (processPart eng loc p).2.2 = List.replicate ([p].filter emittingPart).length none) ∧
    (eng.firstChunk = true →
      rolesOf (processPart eng loc p).2.2 =
        if ([p].filter emittingPart).isEmpty then []
        else some "assistant" :: List.replicate (([p].filter emittingPart).length - 1) none) := by
  cases p with
  | text s thought sig =>
    cases hfc : eng.firstChunk <;>
      refine ⟨by simp [processPart, hfc], by simp [processPart, hfc], by simp [processPart, hfc, isFunctionCallPart],
        ?_, by simp [processPart, hfc], by simp [processPart, hfc, emittingPart],
        by intro c hc; cases thought <;> simp [processPart, hfc, createOpenAIChunk] at hc <;> simp [hc, createOpenAIChunk],
        by simp [processPart, hfc, emittingPart], ?_, ?_⟩
    · simpa [processPart, hfc, partSig] using
        updateSig_eq (GPart.text s thought sig) eng.lastThoughtSignature
    · intro h
      cases thought <;> simp [processPart, hfc, emittingPart, rolesOf, createOpenAIChunk]
    · intro h; simp [hfc] at h
    · simpa [processPart, hfc, partSig] using
        updateSig_eq (GPart.text s thought sig) eng.lastThoughtSignature
    · intro h; simp [hfc] at h
    · intro h
      cases thought <;> simp [processPart, hfc, emittingPart, rolesOf, createOpenAIChunk]
  | functionCall name args sig =>
    cases hfc : eng.firstChunk <;>
      refine ⟨by simp [processPart, hfc], by simp [processPart, hfc], by simp [processPart, hfc, isFunctionCallPart],
        ?_, by simp [processPart, hfc], by simp [processPart, hfc, emittingPart],
        by intro c hc; simp [processPart, hfc, createOpenAIChunk] at hc; simp [hc, createOpenAIChunk],
        by simp [processPart, hfc, emittingPart], ?_, ?_⟩
    · simpa [processPart, hfc, partSig] using
        updateSig_eq (GPart.functionCall name args sig) eng.lastThoughtSignature
    · intro h
      simp [processPart, hfc, emittingPart, rolesOf, createOpenAIChunk]
    · intro h; simp [hfc] at h
    · simpa [processPart, hfc, partSig] using
        updateSig_eq (GPart.functionCall name args sig) eng.lastThoughtSignature
    · intro h; simp [hfc] at h
    · intro h
      simp [processPart, hfc, emittingPart, rolesOf, createOpenAIChunk]
  | functionResponse sig =>
    refine ⟨by simp [processPart], by simp [processPart], by simp [processPart, isFunctionCallPart],
      ?_, by simp [processPart], by simp [processPart, emittingPart],
      by intro c hc; simp [processPart] at hc,
      by simp [processPart, emittingPart], ?_, ?_⟩
    · simpa [processPart, partSig] using
        updateSig_eq (GPart.functionResponse sig) eng.lastThoughtSignature
    · intro h; simp [processPart, emittingPart, rolesOf]
    · intro h; simp [processPart, emittingPart, rolesOf]

theorem truthySigsOfParts_cons (p : GPart) (ps : List GPart) :
    truthySigsOfParts (p :: ps) = truthySigsOfParts [p] ++ truthySigsOfParts ps := by
  simp only [truthySigsOfParts, List.filterMap_cons, List.filterMap_nil]
  rcases partSig p with _ | s
  · simp
  · by_cases hs : s = "" <;> simp [hs]

theorem filter_cons_split (p : GPart) (ps : List GPart) :
    (p :: ps).filter emittingPart = [p].filter emittingPart ++ ps.filter emittingPart := by
  cases hep : emittingPart p <;> simp [List.filter_cons, hep]

theorem processParts_spec (ps : List GPart) : ∀ (eng : EngineSt) (loc : StreamLocals),
    (processParts eng loc ps).2.1.usageData = loc.usageData ∧
    (processParts eng loc ps).2.1.reasoningTokens = loc.reasoningTokens ∧
    ((processParts eng loc ps).2.1.toolCallId.isSome
      = (loc.toolCallId.isSome || ps.any isFunctionCallPart)) ∧
    (processParts eng loc ps).1.lastThoughtSignature
      = lastSigFold eng.lastThoughtSignature (truthySigsOfParts ps) ∧
    (processParts eng loc ps).1.projectId = eng.projectId ∧
    (processParts eng loc ps).2.2.length = (ps.filter emittingPart).length ∧
    (∀ c ∈ (processParts eng loc ps).2.2, c.finish_reason = none ∧ c.usage = none) ∧
    (processParts eng loc ps).1.firstChunk
      = (eng.firstChunk && (ps.filter emittingPart).isEmpty) ∧
    (eng.firstChunk = false →
      rolesOf (processParts eng loc ps).2.2
        = List.replicate (ps.filter emittingPart).length none) ∧
    (eng.firstChunk = true →
      rolesOf (processParts eng loc ps).2.2 =
        if (ps.filter emittingPart).isEmpty then []
        else some "assistant" :: List.replicate ((ps.filter emittingPart).length - 1) none) := by
  induction ps with
  | nil =>
    intro eng loc
    simp [processParts, truthySigsOfParts, lastSigFold, rolesOf]
  | cons p ps ih =>
    intro eng loc
    obtain ⟨h1, h2, h3, h4, h5, h6, h7, h8, h9, h10⟩ := processPart_spec p eng loc
    obtain ⟨t1, t2, t3, t4, t5, t6, t7, t8, t9, t10⟩ :=
      ih (processPart eng loc p).1 (processPart eng loc p).2.1
    have hsplit : processParts eng loc (p :: ps) =
        ((processParts (processPart eng loc p).1 (processPart eng loc p).2.1 ps).1,
         (processParts (processPart eng loc p).1 (processPart eng loc p).2.1 ps).2.1,
         (processPart eng loc p).2.2 ++
           (processParts (processPart eng loc p).1 (processPart eng loc p).2.1 ps).2.2) := rfl
    rw [hsplit]
    have rolesOf_append : ∀ (a b : List StreamChunk), rolesOf (a ++ b) = rolesOf a ++ rolesOf b := by
      intro a b; simp [rolesOf]
    refine ⟨t1.trans h1, t2.trans h2, ?_, ?_, t5.trans h5, ?_, ?_, ?_, ?_, ?_⟩
    · rw [t3, h3]; simp [Bool.or_assoc]
    · rw [t4, h4]
      conv_rhs => rw [truthySigsOfParts_cons p ps]
      rw [lastSigFold_append]
    · conv_rhs => rw [filter_cons_split p ps]
      simp only [List.length_append, t6, h6]
    · intro c hc
      rcases List.mem_append.mp hc with hc | hc
      · exact h7 c hc
      · exact t7 c hc
    · rw [t8, h8]
      conv_rhs => rw [filter_cons_split p ps]
      have hie : ∀ (a b : List GPart), (a ++ b).isEmpty = (a.isEmpty && b.isEmpty) := by
        intro a b; cases a <;> simp
      rw [hie]
      simp [Bool.and_assoc]
    · intro hfcF
      have hhead := h9 hfcF
      have hr1 : (processPart eng loc p).1.firstChunk = false := by
        rw [h8, hfcF]; simp
      have htail := t9 hr1
      rw [rolesOf_append, hhead, htail]
      conv_rhs => rw [filter_cons_split p ps]
      rw [List.length_append, List.replicate_add]
    · intro hfcT
      cases hep : emittingPart p with
      | false =>
        have hfilp : List.filter emittingPart [p] = [] := by simp [List.filter, hep]
        have hhead := h10 hfcT
        rw [hfilp] at hhead
        simp only [List.isEmpty_nil, if_pos rfl] at hhead
        have hr1 : (processPart eng loc p).1.firstChunk = true := by
          rw [h8, hfcT, hfilp]; simp
        have htail := t10 hr1
        rw [rolesOf_append, hhead, htail]
        conv_rhs => rw [filter_cons_split p ps]
        rw [hfilp]
        simp
      | true =>
        have hfilp : List.filter emittingPart [p] = [p] := by simp [List.filter, hep]
        have hhead := h10 hfcT
        rw [hfilp] at hhead
        simp only [List.isEmpty_cons, Bool.false_eq_true, if_neg, List.length_singleton] at hhead
        have hr1 : (processPart eng loc p).1.firstChunk = false := by
          rw [h8, hfilp]; simp
        have htail := t9 hr1
        rw [rolesOf_append, hhead, htail]
        conv_rhs => rw [filter_cons_split p ps]
        rw [hfilp]
        simp

theorem lastUsageMeta_foldl (fs : List GFrame) : ∀ (a : Option GUsageMetadata),
    fs.foldl (fun acc f => match f.usageMetadata with | some u => some u | none => acc) a
      = match lastUsageMeta fs with | some u => some u | none => a := by
  induction fs with
  | nil => intro a; simp [lastUsageMeta]
  | cons f fs ih =>
    intro a
    have hL : lastUsageMeta (f :: fs) =
        fs.foldl (fun acc f => match f.usageMetadata with | some u => some u | none => acc)
          (match f.usageMetadata with | some u => some u | none => none) := by
      simp [lastUsageMeta, List.foldl_cons]
    rw [List.foldl_cons, ih, hL, ih]
    rcases hLU : lastUsageMeta fs with _ | u <;> rcases hum : f.usageMetadata with _ | v <;>
      simp [hum]

theorem applyUsage_spec (l : StreamLocals) (m : Option GUsageMetadata) :
    (applyUsage l m).toolCallId = l.toolCallId ∧
    (applyUsage l m).toolCallIndex = l.toolCallIndex ∧
    (applyUsage l m).usageData
      = (match m with
         | some u => some { prompt_tokens := u.promptTokenCount.getD 0,
                            completion_tokens := u.candidatesTokenCount.getD 0,
                            total_tokens := u.promptTokenCount.getD 0 + u.candidatesTokenCount.getD 0 }
         | none => l.usageData) ∧
    (applyUsage l m).reasoningTokens
      = (match m with
         | some u => u.thoughtsTokenCount.getD 0
         | none => l.reasoningTokens) := by
  cases m <;> simp [applyUsage]

theorem processFrames_spec (fs : List GFrame) : ∀ (eng : EngineSt) (loc : StreamLocals),
    (processFrames eng loc fs).2.1.usageData
      = (match lastUsageMeta fs with
         | some u => some { prompt_tokens := u.promptTokenCount.getD 0,
                            completion_tokens := u.candidatesTokenCount.getD 0,
                            total_tokens := u.promptTokenCount.getD 0 + u.candidatesTokenCount.getD 0 }
         | none => loc.usageData) ∧
    (processFrames eng loc fs).2.1.reasoningTokens
      = (match lastUsageMeta fs with
         | some u => u.thoughtsTokenCount.getD 0
         | none => loc.reasoningTokens) ∧
    ((processFrames eng loc fs).2.1.toolCallId.isSome
      = (loc.toolCallId.isSome || hasFunctionCall fs)) ∧
    (processFrames eng loc fs).1.lastThoughtSignature
      = lastSigFold eng.lastThoughtSignature (truthySigs fs) ∧
    (processFrames eng loc fs).1.projectId = eng.projectId ∧
    (processFrames eng loc fs).2.2.length = countEmits fs ∧
    (∀ c ∈ (processFrames eng loc fs).2.2, c.finish_reason = none ∧ c.usage = none) ∧
    (processFrames eng loc fs).1.firstChunk
      = (eng.firstChunk && decide (countEmits fs = 0)) ∧
    (eng.firstChunk = false →
      rolesOf (processFrames eng loc fs).2.2 = List.replicate (countEmits fs) none) ∧
    (eng.firstChunk = true →
      rolesOf (processFrames eng loc fs).2.2 =
        if countEmits fs = 0 then []
        else some "assistant" :: List.replicate (countEmits fs - 1) none) := by
  induction fs with
  | nil =>
    intro eng loc
    simp [processFrames, lastUsageMeta, hasFunctionCall, truthySigs, lastSigFold, countEmits, rolesOf]
  | cons f fs ih =>
    intro eng loc
    obtain ⟨h1, h2, h3, h4, h5, h6, h7, h8, h9, h10⟩ := processParts_spec f.parts eng loc
    obtain ⟨a1, a2, a3, a4⟩ :=
      applyUsage_spec (processParts eng loc f.parts).2.1 f.usageMetadata
    obtain ⟨t1, t2, t3, t4, t5, t6, t7, t8, t9, t10⟩ :=
      ih (processParts eng loc f.parts).1
         (applyUsage (processParts eng loc f.parts).2.1 f.usageMetadata)
    have hsplit : processFrames eng loc (f :: fs) =
        ((processFrames (processParts eng loc f.parts).1
            (applyUsage (processParts eng loc f.parts).2.1 f.usageMetadata) fs).1,
         (processFrames (processParts eng loc f.parts).1
            (applyUsage (processParts eng loc f.parts).2.1 f.usageMetadata) fs).2.1,
         (processParts eng loc f.parts).2.2 ++
           (processFrames (processParts eng loc f.parts).1
              (applyUsage (processParts eng loc f.parts).2.1 f.usageMetadata) fs).2.2) := rfl
    have hLUcons : lastUsageMeta (f :: fs)
        = match lastUsageMeta fs with | some u => some u | none => f.usageMetadata := by
      have hL : lastUsageMeta (f :: fs) =
          fs.foldl (fun acc g => match g.usageMetadata with | some u => some u | none => acc)
            (match f.usageMetadata with | some u => some u | none => none) := by
        simp [lastUsageMeta, List.foldl_cons]
      rw [hL, lastUsageMeta_foldl]
      rcases lastUsageMeta fs with _ | u <;> rcases hum : f.usageMetadata with _ | v <;> simp [hum]
    have hCE : countEmits (f :: fs) = (f.parts.filter emittingPart).length + countEmits fs := by
      simp [countEmits]
    have rolesOf_append : ∀ (a b : List StreamChunk), rolesOf (a ++ b) = rolesOf a ++ rolesOf b := by
      intro a b; simp [rolesOf]
    rw [hsplit]
    refine ⟨?_, ?_, ?_, ?_, t5.trans h5, ?_, ?_, ?_, ?_, ?_⟩
    · rw [t1, a3, h1, hLUcons]
      rcases lastUsageMeta fs with _ | u <;> rcases f.usageMetadata with _ | v <;> simp
    · rw [t2, a4, h2, hLUcons]
      rcases lastUsageMeta fs with _ | u <;> rcases f.usageMetadata with _ | v <;> simp
    · rw [t3, a1, h3]
      simp [hasFunctionCall, Bool.or_assoc]
    · rw [t4, h4]
      have : truthySigs (f :: fs) = truthySigsOfParts f.parts ++ truthySigs fs := by
        simp [truthySigs]
      rw [this, lastSigFold_append]
    · rw [List.length_append, t6, h6, hCE]
    · intro c hc
      rcases List.mem_append.mp hc with hc | hc
      · exact h7 c hc
      · exact t7 c hc
    · rw [t8, h8, hCE]
      rcases hhead : (f.parts.filter emittingPart).length with _ | n
      · have hie : (f.parts.filter emittingPart).isEmpty = true := by
          rw [List.isEmpty_iff_length_eq_zero, hhead]
        simp [hie]
      · have hie : (f.parts.filter emittingPart).isEmpty = false := by
          rcases hfe : f.parts.filter emittingPart with _ | ⟨x, xs⟩
          · rw [hfe] at hhead; simp at hhead
          · simp
        simp [hie]
    · intro hfcF
      have hhead := h9 hfcF
      have hr1 : (processParts eng loc f.parts).1.firstChunk = false := by
        rw [h8, hfcF]; simp
      have htail := t9 hr1
      rw [rolesOf_append, hhead, htail, hCE, List.replicate_add]
    · intro hfcT
      rcases hlen : (f.parts.filter emittingPart).length with _ | n
      · have hie : (f.parts.filter emittingPart).isEmpty = true := by
          rw [List.isEmpty_iff_length_eq_zero, hlen]
        have hhead := h10 hfcT
        rw [hie] at hhead
        simp only [if_pos rfl] at hhead
        have hr1 : (processParts eng loc f.parts).1.firstChunk = true := by
          rw [h8, hfcT, hie]; simp
        have htail := t10 hr1
        rw [rolesOf_append, hhead, htail, hCE, hlen]
        simp
      · have hie : (f.parts.filter emittingPart).isEmpty = false := by
          rcases hfe : f.parts.filter emittingPart with _ | ⟨x, xs⟩
          · rw [hfe] at hlen; simp at hlen
          · simp
        have hhead := h10 hfcT
        rw [hie] at hhead
        simp only [Bool.false_eq_true, if_neg] at hhead
        have hr1 : (processParts eng loc f.parts).1.firstChunk = false := by
          rw [h8, hie]; simp
        have htail := t9 hr1
        rw [rolesOf_append, hhead, htail, hCE, hlen]
        have harith : n + 1 + countEmits fs - 1 = n + countEmits fs := by omega
        have hne : ¬ (n + 1 + countEmits fs = 0) := by omega
        rw [if_neg hne, harith]
        have : n + 1 - 1 = n := by omega
        rw [this, List.replicate_add]
        simp

theorem finalChunkOf_spec (e : EngineSt) (l : StreamLocals) :
    (finalChunkOf e l).finish_reason
      = some (if l.toolCallId.isSome then "tool_calls" else "stop") ∧
    (finalChunkOf e l).usage
      = (match l.usageData with
         | none => none
         | some u => some (if l.reasoningTokens > 0
             then { u with completion_tokens := u.completion_tokens + l.reasoningTokens,
                           total_tokens := u.total_tokens + l.reasoningTokens }
             else u)) ∧
    (finalChunkOf e l).delta = {} := by
  rcases hid : l.toolCallId with _ | n <;> rcases hud : l.usageData with _ | u <;>
    simp [finalChunkOf, createOpenAIChunk, hid, hud]

/-- C4: for every successfully opened stream, exactly one closing chunk follows
all data chunks; its finish reason is `tool_calls` iff a `functionCall` part
occurred in the stream (else `stop`); if any frame carried usage metadata, the
closing chunk carries usage with the reasoning-token count folded into the
completion and total counts; and the engine's cached thought signature ends up
equal to the last (truthy) `thoughtSignature` seen in any frame. -/
theorem c4_closing_chunk (eng : EngineSt) (frames : List GFrame) :
    (streamSuccess eng frames).2 ≠ [] ∧
    (∀ c ∈ (streamSuccess eng frames).2.dropLast, c.finish_reason = none ∧ c.usage = none) ∧
    ((streamSuccess eng frames).2.getLast?.map (fun c => c.finish_reason)
      = some (some (if hasFunctionCall frames = true then "tool_calls" else "stop"))) ∧
    (∀ u : GUsageMetadata, lastUsageMeta frames = some u →
      (streamSuccess eng frames).2.getLast?.map (fun c => c.usage)
        = some (some { prompt_tokens := u.promptTokenCount.getD 0,
                       completion_tokens := u.candidatesTokenCount.getD 0
                          + u.thoughtsTokenCount.getD 0,
                       total_tokens := u.promptTokenCount.getD 0
                          + u.candidatesTokenCount.getD 0 + u.thoughtsTokenCount.getD 0 })) ∧
    (lastUsageMeta frames = none →
      (streamSuccess eng frames).2.getLast?.map (fun c => c.usage) = some none) ∧
    (∀ s : String, (truthySigs frames).getLast? = some s →
      (streamSuccess eng frames).1.lastThoughtSignature = some s) := by
  obtain ⟨h1, h2, h3, h4, h5, h6, h7, h8, h9, h10⟩ :=
    processFrames_spec frames eng initLocals
  obtain ⟨f1, f2, f3⟩ := finalChunkOf_spec
    (processFrames eng initLocals frames).1
    (processFrames eng initLocals frames).2.1
  have hout : (streamSuccess eng frames).2 =
      (processFrames eng initLocals frames).2.2 ++
      [finalChunkOf (processFrames eng initLocals frames).1
        (processFrames eng initLocals frames).2.1] := rfl
  have heng : (streamSuccess eng frames).1 = (processFrames eng initLocals frames).1 := rfl
  refine ⟨by simp [hout], ?_, ?_, ?_, ?_, ?_⟩
  · rw [hout, List.dropLast_concat]
    exact h7
  · rw [hout, List.getLast?_concat]
    simp only [Option.map_some']
    rw [f1, h3]
    simp [initLocals]
  · intro u hu
    rw [hout, List.getLast?_concat]
    simp only [Option.map_some']
    rw [f2, h1, h2, hu]
    rcases ht : u.thoughtsTokenCount.getD 0 with _ | t
    · simp [ht]
    · simp [ht]
  · intro hu
    rw [hout, List.getLast?_concat]
    simp only [Option.map_some']
    rw [f2, h1, hu]
    simp [initLocals]
  · intro s hs
    rw [heng, h4]
    exact lastSigFold_last _ _ _ hs

/-- Witness for C4: a stream with one tool call carrying signature `sig-1` and a
usage frame (prompt 10, candidates 5, thoughts 3). -/
theorem c4_closing_chunk_witness :
    ((streamSuccess freshEngine
        [⟨[.functionCall "get" "{}" (some "sig-1")], none⟩,
         ⟨[], some ⟨some 10, some 5, some 3⟩⟩]).2.getLast?.map (fun c => c.finish_reason)
      = some (some "tool_calls")) ∧
    ((streamSuccess freshEngine
        [⟨[.functionCall "get" "{}" (some "sig-1")], none⟩,
         ⟨[], some ⟨some 10, some 5, some 3⟩⟩]).2.getLast?.map (fun c => c.usage)
      = some (some { prompt_tokens := 10, completion_tokens := 8, total_tokens := 18 })) ∧
    (streamSuccess freshEngine
        [⟨[.functionCall "get" "{}" (some "sig-1")], none⟩,
         ⟨[], some ⟨some 10, some 5, some 3⟩⟩]).1.lastThoughtSignature = some "sig-1" := by
  refine ⟨?_, ?_, ?_⟩
  · have h := (c4_closing_chunk freshEngine
      [⟨[.functionCall "get" "{}" (some "sig-1")], none⟩,
       ⟨[], some ⟨some 10, some 5, some 3⟩⟩]).2.2.1
    simpa [hasFunctionCall, isFunctionCallPart] using h
  · exact (c4_closing_chunk freshEngine
      [⟨[.functionCall "get" "{}" (some "sig-1")], none⟩,
       ⟨[], some ⟨some 10, some 5, some 3⟩⟩]).2.2.2.1 ⟨some 10, some 5, some 3⟩ (by decide)
  · exact (c4_closing_chunk freshEngine
      [⟨[.functionCall "get" "{}" (some "sig-1")], none⟩,
       ⟨[], some ⟨some 10, some 5, some 3⟩⟩]).2.2.2.2.2 "sig-1" (by decide)

theorem streamSuccess_firstChunk (eng : EngineSt) (frames : List GFrame) :
    (streamSuccess eng frames).1.firstChunk
      = (eng.firstChunk && decide (countEmits frames = 0)) :=
  (processFrames_spec frames eng initLocals).2.2.2.2.2.2.2.1

theorem streamSuccess_roles_true (eng : EngineSt) (frames : List GFrame)
    (h : eng.firstChunk = true) :
    rolesOf (streamSuccess eng frames).2 =
      (if countEmits frames = 0 then [none]
       else some "assistant" :: List.replicate (countEmits frames) none) := by
  obtain ⟨h1, h2, h3, h4, h5, h6, h7, h8, h9, h10⟩ := processFrames_spec frames eng initLocals
  obtain ⟨f1, f2, f3⟩ := finalChunkOf_spec
    (processFrames eng initLocals frames).1 (processFrames eng initLocals frames).2.1
  have hout : (streamSuccess eng frames).2 =
      (processFrames eng initLocals frames).2.2 ++
      [finalChunkOf (processFrames eng initLocals frames).1
        (processFrames eng initLocals frames).2.1] := rfl
  have hra : rolesOf ((processFrames eng initLocals frames).2.2 ++
      [finalChunkOf (processFrames eng initLocals frames).1
        (processFrames eng initLocals frames).2.1]) =
      rolesOf (processFrames eng initLocals frames).2.2 ++
      [(finalChunkOf (processFrames eng initLocals frames).1
        (processFrames eng initLocals frames).2.1).delta.role] := by
    simp [rolesOf]
  rw [hout, hra, f3, h10 h]
  rcases hce : countEmits frames with _ | t
  · simp
  · have : ¬ (t + 1 = 0) := by omega
    rw [if_neg this, if_neg this]
    have ht : t + 1 - 1 = t := by omega
    rw [ht]
    simp [List.replicate_succ']

theorem streamSuccess_roles_false (eng : EngineSt) (frames : List GFrame)
    (h : eng.firstChunk = false) :
    rolesOf (streamSuccess eng frames).2 = List.replicate (countEmits frames + 1) none := by
  obtain ⟨h1, h2, h3, h4, h5, h6, h7, h8, h9, h10⟩ := processFrames_spec frames eng initLocals
  obtain ⟨f1, f2, f3⟩ := finalChunkOf_spec
    (processFrames eng initLocals frames).1 (processFrames eng initLocals frames).2.1
  have hout : (streamSuccess eng frames).2 =
      (processFrames eng initLocals frames).2.2 ++
      [finalChunkOf (processFrames eng initLocals frames).1
        (processFrames eng initLocals frames).2.1] := rfl
  have hra : rolesOf ((processFrames eng initLocals frames).2.2 ++
      [finalChunkOf (processFrames eng initLocals frames).1
        (processFrames eng initLocals frames).2.1]) =
      rolesOf (processFrames eng initLocals frames).2.2 ++
      [(finalChunkOf (processFrames eng initLocals frames).1
        (processFrames eng initLocals frames).2.1).delta.role] := by
    simp [rolesOf]
  rw [hout, hra, f3, h9 h]
  simp [List.replicate_succ']

/-- C5 (amended): within a single stream run from an engine instance whose
`firstChunk` flag is still set, only the very first emitted delta carries the
`assistant` role marker and every later delta (including the closing chunk)
omits it.  The flag, however, is engine-instance state, not per-request state:
it is never reset at stream end, so a second stream served by the same instance
emits no role marker at all. -/
theorem c5_first_chunk_role_amended (eng : EngineSt) (frames frames2 : List GFrame) :
    (eng.firstChunk = true →
      rolesOf (streamSuccess eng frames).2 =
        (if countEmits frames = 0 then [none]
         else some "assistant" :: List.replicate (countEmits frames) none)) ∧
    (eng.firstChunk = false →
      rolesOf (streamSuccess eng frames).2 = List.replicate (countEmits frames + 1) none) ∧
    (eng.firstChunk = true → 0 < countEmits frames →
      rolesOf (streamSuccess (streamSuccess eng frames).1 frames2).2 =
        List.replicate (countEmits frames2 + 1) none) := by
  refine ⟨streamSuccess_roles_true eng frames, streamSuccess_roles_false eng frames, ?_⟩
  intro h hc
  apply streamSuccess_roles_false
  rw [streamSuccess_firstChunk, h]
  have : ¬ (countEmits frames = 0) := by omega
  simp [this]

/-- C5 counterexample: the claim says the first-chunk flag is per-request, so a
second stream served by the same engine instance would again start with an
`assistant` role marker; in fact the flag is instance state and the second
stream's first delta carries no role marker. -/
theorem c5_counterexample :
    (streamSuccess (streamSuccess freshEngine [⟨[.text "Hello" false none], none⟩]).1
        [⟨[.text "Hello" false none], none⟩]).2.head?.map (fun c => c.delta.role)
      = some none := by
  rfl

/-- Witness for C5 (amended) at a concrete input: first stream roles are
`[assistant, -]`, a second stream on the same instance has roles `[-, -]`. -/
theorem c5_first_chunk_role_amended_witness :
    rolesOf (streamSuccess freshEngine [⟨[.text "Hello" false none], none⟩]).2
      = [some "assistant", none] ∧
    rolesOf (streamSuccess (streamSuccess freshEngine [⟨[.text "Hello" false none], none⟩]).1
        [⟨[.text "Hi" false none], none⟩]).2 = [none, none] := by
  refine ⟨?_, ?_⟩
  · have h := (c5_first_chunk_role_amended freshEngine
      [⟨[.text "Hello" false none], none⟩] []).1 rfl
    simpa [countEmits, emittingPart] using h
  · have h := (c5_first_chunk_role_amended freshEngine
      [⟨[.text "Hello" false none], none⟩] [⟨[.text "Hi" false none], none⟩]).2.2 rfl (by decide)
    simpa [countEmits, emittingPart] using h

/- ===================== theorems: time-based reset (C6) ===================== -/

/-- C6 counterexample: with the host clock at UTC (`getTimezoneOffset = 0`) and a
configured reset at hour 0 in GMT+9, a reset fires at 2025-01-02 00:00 GMT+9
(`1735743600000` ms) and then fires AGAIN thirty minutes later in the same
GMT+9 calendar day, because the last reset's day is computed in the host
timezone (where it is still Jan 1) — contradicting the claim that the reset
fires only when the configured-timezone day differs from the last reset's day
in that same timezone, and that it resets at most once per calendar day. -/
theorem c6_counterexample :
    shouldResetIndexFires 1735743600000 0 ⟨9, 0⟩ 1735657200000 = true ∧
    shouldResetIndexFires 1735745400000 0 ⟨9, 0⟩ 1735743600000 = true ∧
    specShouldResetIndexFires 1735745400000 ⟨9, 0⟩ 1735743600000 = false ∧
    civilOfMs (1735745400000 + 9 * 3600000) = civilOfMs (1735743600000 + 9 * 3600000) := by
  refine ⟨by decide, by decide, by decide, by decide⟩

/-- C6 (amended): the reset fires when the configured-timezone current hour
matches the reset hour and the configured-timezone current calendar day differs
from the HOST-timezone calendar day of the last reset.  When it fires it resets
the index to 0, clears the exhaustion flag and stamps the reset time; and when
the host timezone agrees with the configured offset, the reset is idempotent
within the matching window: a second check in the same configured-timezone
calendar day does not fire again. -/
theorem c6_time_reset_amended (nowMs nowMs2 hostTzOffsetMin : Int) (rot : RotSt)
    (halign : hostTzOffsetMin = -60 * rot.cfg.resetTimezoneOffset)
    (hfire : shouldResetIndexFires nowMs hostTzOffsetMin rot.cfg rot.lastResetTime = true)
    (hsameday : civilOfMs (nowMs2 + rot.cfg.resetTimezoneOffset * 3600000)
       = civilOfMs (nowMs + rot.cfg.resetTimezoneOffset * 3600000)) :
    ((shouldResetIndex nowMs hostTzOffsetMin rot).2.currentIndex = 0 ∧
     (shouldResetIndex nowMs hostTzOffsetMin rot).2.allAccountsExhausted = false ∧
     (shouldResetIndex nowMs hostTzOffsetMin rot).2.lastResetTime = nowMs) ∧
    shouldResetIndexFires nowMs2 hostTzOffsetMin rot.cfg nowMs = false := by
  constructor
  · simp [shouldResetIndex, hfire]
  · have heq : civilOfMs (nowMs - hostTzOffsetMin * 60000)
        = civilOfMs (nowMs2 + rot.cfg.resetTimezoneOffset * 3600000) := by
      have h1 : nowMs - hostTzOffsetMin * 60000
          = nowMs + rot.cfg.resetTimezoneOffset * 3600000 := by
        rw [halign]; ring
      rw [h1, hsameday]
    simp only [shouldResetIndexFires, decide_eq_false_iff_not, not_and]
    intro hh hd
    rcases hd with hd | hd | hd
    · exact hd (congrArg (fun x => x.2.2) heq.symm)
    · exact hd (congrArg (fun x => x.2.1) heq.symm)
    · exact hd (congrArg (fun x => x.1) heq.symm)

/-- Witness for C6 (amended): host clock at GMT+9 (`getTimezoneOffset = -540`),
reset hour 0 in GMT+9; reset fires at 2025-01-02 00:00 GMT+9 and a re-check
thirty minutes later does not fire again. -/
theorem c6_time_reset_amended_witness :
    ((shouldResetIndex 1735743600000 (-540)
        { scenarioRot ["a", "b"] with cfg := ⟨9, 0⟩, lastResetTime := 1735657200000, currentIndex := 1 }).2.currentIndex = 0 ∧
     (shouldResetIndex 1735743600000 (-540)
        { scenarioRot ["a", "b"] with cfg := ⟨9, 0⟩, lastResetTime := 1735657200000, currentIndex := 1 }).2.allAccountsExhausted = false ∧
     (shouldResetIndex 1735743600000 (-540)
        { scenarioRot ["a", "b"] with cfg := ⟨9, 0⟩, lastResetTime := 1735657200000, currentIndex := 1 }).2.lastResetTime
       = 1735743600000) ∧
    shouldResetIndexFires 1735745400000 (-540) ⟨9, 0⟩ 1735743600000 = false :=
  c6_time_reset_amended 1735743600000 1735745400000 (-540)
    { scenarioRot ["a", "b"] with cfg := ⟨9, 0⟩, lastResetTime := 1735657200000, currentIndex := 1 }
    (by decide) (by decide) (by decide)

/- ===================== theorems: credential validation (C7) ===================== -/

/-- C7 counterexample: a credential file containing ONLY a `client_id` (no access
token, no refresh token, no client secret — so no "client-id and client-secret
pair") is accepted by the rotator's validation and the rotation succeeds,
while the spec-worded validation rejects it. -/
theorem c7_counterexample :
    validateCredentialFile
      [("a.json", .credObj ⟨none, none, some "cid", none⟩),
       ("b.json", .credObj ⟨none, none, some "cid", none⟩)] "b.json" = true ∧
    (rotateCredentials 0 0
      [("a.json", .credObj ⟨none, none, some "cid", none⟩),
       ("b.json", .credObj ⟨none, none, some "cid", none⟩)]
      (scenarioRot ["a.json", "b.json"])).toOption.isSome = true ∧
    specValidCredential ⟨none, none, some "cid", none⟩ = false := by
  refine ⟨by decide, by decide, by decide⟩

theorem validate_read (fs : FS) (p : String)
    (h : validateCredentialFile fs p = true) :
    ∃ c, fsRead fs p = some (.credObj c) := by
  unfold validateCredentialFile at h
  rcases hr : fsRead fs p with _ | d
  · rw [hr] at h; simp at h
  · rcases d with c | _ | _
    · exact ⟨c, rfl⟩
    · rw [hr] at h; simp at h
    · rw [hr] at h; simp at h

theorem performRotation_cases (fs : FS) (rot : RotSt) :
    (validateCredentialFile fs ((rot.credentialFilePaths.get?
        ((rot.currentIndex + 1) % rot.credentialFilePaths.length)).getD "") = false →
      ∃ r, performRotation fs rot = .error (.invalidCredentialFile
        ((rot.credentialFilePaths.get?
          ((rot.currentIndex + 1) % rot.credentialFilePaths.length)).getD ""), r)) ∧
    (validateCredentialFile fs ((rot.credentialFilePaths.get?
        ((rot.currentIndex + 1) % rot.credentialFilePaths.length)).getD "") = true →
      ∃ rot' fs', performRotation fs rot = .ok
        (((rot.credentialFilePaths.get?
          ((rot.currentIndex + 1) % rot.credentialFilePaths.length)).getD ""), rot', fs')) := by
  constructor
  · intro hval
    cases hex : rot.allAccountsExhausted
    · simp only [performRotation, hex, Bool.false_eq_true, if_false]
      rw [if_pos hval]
      exact ⟨_, rfl⟩
    · simp only [performRotation, hex, if_true]
      rw [if_pos hval]
      exact ⟨_, rfl⟩
  · intro hval
    obtain ⟨c, hc⟩ := validate_read fs _ hval
    have hvalne : ¬ (validateCredentialFile fs ((rot.credentialFilePaths.get?
        ((rot.currentIndex + 1) % rot.credentialFilePaths.length)).getD "") = false) := by
      rw [hval]; simp
    cases hex : rot.allAccountsExhausted
    · simp only [performRotation, hex, Bool.false_eq_true, if_false]
      rw [if_neg hvalne, hc]
      exact ⟨_, _, rfl⟩
    · simp only [performRotation, hex, if_true]
      rw [if_neg hvalne, hc]
      exact ⟨_, _, rfl⟩

/-- C7 (amended): during an active rotation the candidate file is accepted iff its
parsed JSON contains at least one truthy field among access token, refresh
token, client id, or client secret (each alone suffices — not the id+secret
pair the spec describes); a candidate satisfying none of these, or an
unreadable/unparsable one, makes `rotateCredentials` raise an error that
propagates to the caller. -/
theorem c7_validation_amended (fs : FS) (rot : RotSt) (nowMs hostTzOffsetMin : Int)
    (hen : isRotationEnabled rot = true)
    (hnoreset : shouldResetIndexFires nowMs hostTzOffsetMin rot.cfg rot.lastResetTime = false) :
    ((∃ e, rotateCredentials nowMs hostTzOffsetMin fs rot = .error e)
      ↔ validateCredentialFile fs
          ((rot.credentialFilePaths.get?
            ((rot.currentIndex + 1) % rot.credentialFilePaths.length)).getD "") = false) ∧
    (∀ p, validateCredentialFile fs p = true ↔
      ∃ c, fsRead fs p = some (.credObj c) ∧
        (truthyStr c.access_token = true ∨ truthyStr c.refresh_token = true ∨
         truthyStr c.client_id = true ∨ truthyStr c.client_secret = true)) := by
  have hrw : rotateCredentials nowMs hostTzOffsetMin fs rot =
      (match performRotation fs rot with
       | .ok (p, rot', fs') => .ok (some p, rot', fs')
       | .error e => .error e) := by
    simp only [rotateCredentials, hen, Bool.not_true, Bool.false_eq_true, if_false,
      shouldResetIndex, hnoreset, Bool.false_eq_true, if_false]
  obtain ⟨herr, hok⟩ := performRotation_cases fs rot
  constructor
  · constructor
    · rintro ⟨e, he⟩
      rcases hval : validateCredentialFile fs ((rot.credentialFilePaths.get?
          ((rot.currentIndex + 1) % rot.credentialFilePaths.length)).getD "") with _ | _
      · rfl
      · obtain ⟨rot', fs', hperf⟩ := hok hval
        rw [hrw, hperf] at he
        simp at he
    · intro hval
      obtain ⟨r, hperf⟩ := herr hval
      exact ⟨_, by rw [hrw, hperf]⟩
  · intro p
    constructor
    · intro h
      obtain ⟨c, hc⟩ := validate_read fs p h
      refine ⟨c, hc, ?_⟩
      unfold validateCredentialFile at h
      rw [hc] at h
      rcases h1 : truthyStr c.access_token <;> rcases h2 : truthyStr c.refresh_token <;>
        rcases h3 : truthyStr c.client_id <;> rcases h4 : truthyStr c.client_secret <;>
        simp [h1, h2, h3, h4] at h ⊢
    · rintro ⟨c, hc, hd⟩
      unfold validateCredentialFile
      rw [hc]
      rcases hd with h | h | h | h <;> simp [h]


/-- Witness for C7 (amended): a pool of two valid credential files; the validation
characterization instantiated at the rotation target. -/
theorem c7_validation_amended_witness :
    ∃ c, fsRead (scenarioFs ["a.json", "b.json"]) "b.json" = some (.credObj c) ∧
      (truthyStr c.access_token = true ∨ truthyStr c.refresh_token = true ∨
       truthyStr c.client_id = true ∨ truthyStr c.client_secret = true) :=
  ((c7_validation_amended (scenarioFs ["a.json", "b.json"]) (scenarioRot ["a.json", "b.json"])
      0 0 (by decide) (by decide)).2 "b.json").mp (by decide)

/- ===================== theorems: project-identity invalidation (C3) ===================== -/

theorem find?_filter_ne (fs : FS) (p q : String) (hpq : p ≠ q) :
    (fs.filter (fun e => !(e.1 == q))).find? (fun e => e.1 == p)
      = fs.find? (fun e => e.1 == p) := by
  induction fs with
  | nil => rfl
  | cons a fs ih =>
    by_cases haq : a.1 = q
    · have h1 : (a.1 == q) = true := by simp [haq]
      have h2 : (a.1 == p) = false := by
        rw [haq]
        exact beq_eq_false_iff_ne.mpr (Ne.symm hpq)
      simp [List.filter_cons, h1, List.find?_cons, h2, ih]
    · have h1 : (a.1 == q) = false := beq_eq_false_iff_ne.mpr haq
      by_cases hap : a.1 = p
      · have h2 : (a.1 == p) = true := by simp [hap]
        simp [List.filter_cons, h1, List.find?_cons, h2]
      · have h2 : (a.1 == p) = false := beq_eq_false_iff_ne.mpr hap
        simp [List.filter_cons, h1, List.find?_cons, h2, ih]

theorem fsRead_fsWrite (fs : FS) (q p : String) (d : FileData) :
    fsRead (fsWrite fs q d) p = if p = q then some d else fsRead fs p := by
  by_cases hpq : p = q
  · subst hpq
    have h1 : (p == p) = true := by simp
    simp [fsRead, fsWrite, List.find?_cons, h1]
  · have h1 : (q == p) = false := beq_eq_false_iff_ne.mpr (Ne.symm hpq)
    simp only [fsRead, fsWrite, List.find?_cons, h1, if_neg hpq]
    rw [find?_filter_ne fs p q hpq]

theorem fsWrite_preserves (fs : FS) (q p : String) (d d0 : FileData)
    (h : fsRead fs p = some d0) : ∃ d', fsRead (fsWrite fs q d) p = some d' := by
  rw [fsRead_fsWrite]
  by_cases hpq : p = q
  · exact ⟨d, by rw [if_pos hpq]⟩
  · exact ⟨d0, by rw [if_neg hpq]; exact h⟩

theorem reloadCredentials_spec (env : Env) (w : World) (src : Option String) (w' : World)
    (h : reloadCredentials env w src = some w') :
    w'.eng.projectId = none ∧
    w'.eng.lastThoughtSignature = w.eng.lastThoughtSignature ∧
    w'.eng.firstChunk = w.eng.firstChunk ∧
    w'.rot = w.rot ∧
    w'.attempts = w.attempts ∧
    w'.swallowed = w.swallowed ∧
    (∀ p d, fsRead w.fs p = some d → ∃ d', fsRead w'.fs p = some d') := by
  unfold reloadCredentials at h
  rcases hr : fsRead w.fs cachedCredentialPath with _ | d
  · rw [hr] at h; simp at h
  · rw [hr] at h
    rcases d with c | _ | _
    · rcases hro : env.refreshOk with _ | _
      · rw [hro] at h
        simp only [Bool.false_eq_true, if_false, Option.some_inj] at h
        subst h
        exact ⟨rfl, rfl, rfl, rfl, rfl, rfl, fun p d hd => ⟨d, hd⟩⟩
      · rw [hro] at h
        simp only [if_true, Option.some_inj] at h
        subst h
        refine ⟨rfl, rfl, rfl, rfl, rfl, rfl, ?_⟩
        intro p d0 hd
        rcases src with _ | srcp
        · exact fsWrite_preserves _ _ _ _ _ hd
        · simp only []
          rcases hs : fsRead (fsWrite w.fs cachedCredentialPath (.credObj env.refreshed)) srcp
            with _ | e
          · exact fsWrite_preserves _ _ _ _ _ hd
          · rcases e with ce | _ | _
            · obtain ⟨d1, hd1⟩ := fsWrite_preserves w.fs cachedCredentialPath p
                (.credObj env.refreshed) d0 hd
              exact fsWrite_preserves _ _ _ _ _ hd1
            · exact fsWrite_preserves _ _ _ _ _ hd
            · exact fsWrite_preserves _ _ _ _ _ hd
    · rcases hro : env.refreshOk with _ | _
      · rw [hro] at h
        simp only [Bool.false_eq_true, if_false, Option.some_inj] at h
        subst h
        exact ⟨rfl, rfl, rfl, rfl, rfl, rfl, fun p d hd => ⟨d, hd⟩⟩
      · rw [hro] at h
        simp only [if_true, Option.some_inj] at h
        subst h
        refine ⟨rfl, rfl, rfl, rfl, rfl, rfl, ?_⟩
        intro p d0 hd
        rcases src with _ | srcp
        · exact fsWrite_preserves _ _ _ _ _ hd
        · simp only []
          rcases hs : fsRead (fsWrite w.fs cachedCredentialPath (.credObj env.refreshed)) srcp
            with _ | e
          · exact fsWrite_preserves _ _ _ _ _ hd
          · rcases e with ce | _ | _
            · obtain ⟨d1, hd1⟩ := fsWrite_preserves w.fs cachedCredentialPath p
                (.credObj env.refreshed) d0 hd
              exact fsWrite_preserves _ _ _ _ _ hd1
            · exact fsWrite_preserves _ _ _ _ _ hd
            · exact fsWrite_preserves _ _ _ _ _ hd
    · simp at h

/-- C3 counterexample: after a successful credential reload following rotation,
the persistent project-identity cache file is still present with its old content
— the engine clears only the in-memory cached project id and never deletes (nor
reads) the cache file, contradicting the claim that the file "is deleted". -/
theorem c3_counterexample :
    ((reloadCredentials (scenarioEnv (fun _ => 429))
        ⟨⟨true, none, some "old-project"⟩, scenarioRot ["a.json"],
         [(projectCachePath, FileData.otherJson),
          (cachedCredentialPath, FileData.credObj validCred)], 0, []⟩
        (some "a.json")).map (fun w' => fsRead w'.fs projectCachePath)
      = some (some FileData.otherJson)) ∧
    ((reloadCredentials (scenarioEnv (fun _ => 429))
        ⟨⟨true, none, some "old-project"⟩, scenarioRot ["a.json"],
         [(projectCachePath, FileData.otherJson),
          (cachedCredentialPath, FileData.credObj validCred)], 0, []⟩
        (some "a.json")).map (fun w' => w'.eng.projectId) = some none) := by
  refine ⟨by decide, by decide⟩

/-- C3 (amended): whenever the engine successfully reloads credentials after a
rotation it clears the in-memory cached project identity, so a subsequent
identity-resolution call (with no static override) re-runs discovery and returns
its fresh (normalized) result independently of the pre-rotation cached value;
but no persistent project-identity cache file is read or deleted — every file
present before the reload is still present after it. -/
theorem c3_identity_invalidation_amended (env : Env) (w : World) (src : Option String)
    (w' : World) (h : reloadCredentials env w src = some w') :
    w'.eng.projectId = none ∧
    (discoverProjectId none env w'.eng).1 = normalizeProjectId env.discovery ∧
    (∀ p d, fsRead w.fs p = some d → ∃ d', fsRead w'.fs p = some d') := by
  obtain ⟨h1, _, _, _, _, _, h7⟩ := reloadCredentials_spec env w src w' h
  refine ⟨h1, ?_, h7⟩
  simp [discoverProjectId, h1]

/-- Witness for C3 (amended) at a concrete world: in-memory id cleared, fresh
discovery result returned, and in particular the project-cache file untouched. -/
theorem c3_identity_invalidation_amended_witness :
    ((⟨⟨true, none, none⟩, scenarioRot ["a.json"],
       [(projectCachePath, FileData.otherJson),
        (cachedCredentialPath, FileData.credObj validCred)], 0, []⟩ : World).eng.projectId
      = none) ∧
    ((discoverProjectId none (scenarioEnv (fun _ => 429))
        (⟨⟨true, none, none⟩, scenarioRot ["a.json"],
          [(projectCachePath, FileData.otherJson),
           (cachedCredentialPath, FileData.credObj validCred)], 0, []⟩ : World).eng).1
      = normalizeProjectId (scenarioEnv (fun _ => 429)).discovery) ∧
    (∀ p d, fsRead [(projectCachePath, FileData.otherJson),
        (cachedCredentialPath, FileData.credObj validCred)] p = some d →
      ∃ d', fsRead (⟨⟨true, none, none⟩, scenarioRot ["a.json"],
        [(projectCachePath, FileData.otherJson),
         (cachedCredentialPath, FileData.credObj validCred)], 0, []⟩ : World).fs p = some d') :=
  c3_identity_invalidation_amended (scenarioEnv (fun _ => 429))
    ⟨⟨true, none, some "old-project"⟩, scenarioRot ["a.json"],
     [(projectCachePath, FileData.otherJson),
      (cachedCredentialPath, FileData.credObj validCred)], 0, []⟩
    (some "a.json")
    ⟨⟨true, none, none⟩, scenarioRot ["a.json"],
     [(projectCachePath, FileData.otherJson),
      (cachedCredentialPath, FileData.credObj validCred)], 0, []⟩
    (by rfl)

/- ===================== theorems: thought-signature persistence (C10) ===================== -/

theorem streamSuccess_sig (eng : EngineSt) (frames : List GFrame) :
    (streamSuccess eng frames).1.lastThoughtSignature
      = lastSigFold eng.lastThoughtSignature (truthySigs frames) :=
  (processFrames_spec frames eng initLocals).2.2.2.1

theorem streamSuccess_sig_isSome (eng : EngineSt) (frames : List GFrame)
    (h : eng.lastThoughtSignature.isSome = true) :
    (streamSuccess eng frames).1.lastThoughtSignature.isSome = true := by
  rw [streamSuccess_sig]
  exact lastSigFold_isSome _ _ h

theorem discover_sig (gp : Option String) (env : Env) (e : EngineSt) :
    (discoverProjectId gp env e).2.lastThoughtSignature = e.lastThoughtSignature := by
  rcases gp with _ | p
  · rcases hp : e.projectId with _ | q <;> simp [discoverProjectId, hp]
  · simp [discoverProjectId]

theorem blacklist403_eng (status : Nat) (w : World) :
    (blacklist403 status w).eng = w.eng := by
  unfold blacklist403
  split
  · split <;> rfl
  · rfl

theorem rotationRetry_sig (env : Env) (gp : Option String)
    (recur : World → GRequest → Nat → SResult × World)
    (hrec : ∀ w req r, w.eng.lastThoughtSignature.isSome = true →
      ((recur w req r).2.eng.lastThoughtSignature).isSome = true)
    (status : Nat) (errorText : String)
    (w : World) (req : GRequest) (retryCount : Nat)
    (h : w.eng.lastThoughtSignature.isSome = true) :
    ((rotationRetry env gp recur status errorText w req retryCount).2.eng.lastThoughtSignature).isSome
      = true := by
  have hb := blacklist403_eng status w
  dsimp only [rotationRetry]
  generalize hG : blacklist403 status w = W
  rw [hG] at hb
  split
  · simpa [hb] using h
  · simpa [hb] using h
  · rename_i rotatedPath rot' fs' hrot
    split
    · simpa [hb] using h
    · rename_i w1 hre
      obtain ⟨_, hsig, _, _, _, _, _⟩ := reloadCredentials_spec env _ _ _ hre
      have hdisc : (({ w1 with eng := (discoverProjectId gp env w1.eng).2 } : World)).eng.lastThoughtSignature.isSome = true := by
        simp only [discover_sig, hsig]
        simpa [hb] using h
      have h2 := hrec ({ w1 with eng := (discoverProjectId gp env w1.eng).2 })
        (match (discoverProjectId gp env w1.eng).1 with | some pid => { req with project := some pid } | none => req)
        (retryCount + 1) hdisc
      split
      · rename_i out w2 hrec2
        rw [hrec2] at h2
        exact h2
      · rename_i w2 hrec2
        rw [hrec2] at h2
        exact h2
      · rename_i e2 w2 hrec2
        rw [hrec2] at h2
        exact h2

theorem streamInternal_sig_isSome (env : Env) (gp : Option String) :
    ∀ (fuel : Nat) (w : World) (req : GRequest) (r : Nat),
      w.eng.lastThoughtSignature.isSome = true →
      ((streamContentInternal env gp fuel w req r).2.eng.lastThoughtSignature).isSome = true := by
  intro fuel
  induction fuel with
  | zero =>
    intro w req r h
    simpa [streamContentInternal] using h
  | succ fuel ih =>
    intro w req r h
    rcases hup : env.up w.attempts with frames | ⟨status, text⟩ | _
    · simp only [streamContentInternal, hup]
      exact streamSuccess_sig_isSome _ _ h
    · simp only [streamContentInternal, hup]
      split
      · exact ih _ _ _ h
      · split
        · exact rotationRetry_sig env gp _ (fun w req r hw => ih w req r hw) _ _ _ _ _ h
        · exact h
    · simpa [streamContentInternal, hup] using h

/-- **C10**: the engine's cached thought signature is never invalidated — no
engine call (success path, 401 retry, account rotation, or error path) resets
it to `undefined`; it is only ever overwritten by a frame carrying a truthy
`thoughtSignature`, so a stream whose frames carry none leaves it exactly
unchanged; and a later, logically unrelated tool message mapped against the
same engine state echoes the signature captured earlier back upstream. -/
theorem c10_signature_never_invalidated
    (env : Env) (gp : Option String) (fuel : Nat) (w : World) (req : GRequest) (r : Nat)
    (h : w.eng.lastThoughtSignature.isSome = true) :
    ((streamContentInternal env gp fuel w req r).2.eng.lastThoughtSignature).isSome = true ∧
    (∀ frames : List GFrame, truthySigs frames = [] →
      (streamSuccess w.eng frames).1.lastThoughtSignature = w.eng.lastThoughtSignature) ∧
    (∀ (prev : List OToolCall) (tcid content s : String),
      w.eng.lastThoughtSignature = some s → s ≠ "" →
      (mapToolMessageToGeminiFormat prev tcid content w.eng.lastThoughtSignature).parts.map sigOfReqPart
        = [some s]) := by
  refine ⟨streamInternal_sig_isSome env gp fuel w req r h, ?_, ?_⟩
  · intro frames hf
    rw [streamSuccess_sig, hf]
    rfl
  · intro prev tcid content s hs hne
    rw [hs]
    simp [mapToolMessageToGeminiFormat, sigOfReqPart, truthyStr, hne]

/-- Witness for C10: an engine holding signature `sig-0` keeps it `some` through
a failing 3-fuel call against a permanently-429 upstream, keeps it exactly
through a signature-free stream, and the mapper echoes it on a later tool
message. -/
theorem c10_signature_never_invalidated_witness :
    ((⟨⟨true, some "sig-0", none⟩, scenarioRot ["a.json"], scenarioFs ["a.json"], 0, []⟩ : World).eng.lastThoughtSignature.isSome = true) ∧
    ((streamContentInternal (scenarioEnv (fun _ => 429)) none 3 ⟨⟨true, some "sig-0", none⟩, scenarioRot ["a.json"], scenarioFs ["a.json"], 0, []⟩ scenarioReq 0).2.eng.lastThoughtSignature).isSome = true ∧
    (streamSuccess (⟨true, some "sig-0", none⟩ : EngineSt) [⟨[.text "hi" false none], none⟩]).1.lastThoughtSignature = some "sig-0" ∧
    (mapToolMessageToGeminiFormat [] "call_1" "ok" (some "sig-0")).parts.map sigOfReqPart = [some "sig-0"] := by
  have H := c10_signature_never_invalidated (scenarioEnv (fun _ => 429)) none 3
    ⟨⟨true, some "sig-0", none⟩, scenarioRot ["a.json"], scenarioFs ["a.json"], 0, []⟩ scenarioReq 0 (by rfl)
  exact ⟨by rfl, H.1, H.2.1 [⟨[.text "hi" false none], none⟩] (by rfl),
    H.2.2 [] "call_1" "ok" "sig-0" rfl (by decide)⟩

/- ===================== theorems: the failing rotation loop (C1, C2) ===================== -/

theorem noReset (last : Int) : shouldResetIndexFires 0 0 noResetCfg last = false := by
  have h0 : hourOfMs 0 = 0 := by decide
  unfold shouldResetIndexFires
  simp [h0, noResetCfg]

theorem scenarioFs_read (paths : List String) (p : String) (hp : p ∈ paths) :
    fsRead (scenarioFs paths) p = some (.credObj validCred) := by
  induction paths with
  | nil => cases hp
  | cons q rest ih =>
    rcases List.mem_cons.mp hp with h | h
    · subst h
      simp [scenarioFs, fsRead]
    · by_cases hq : q = p
      · subst hq
        simp [scenarioFs, fsRead]
      · have hb : (q == p) = false := beq_eq_false_iff_ne.mpr hq
        have hrec := ih h
        simp only [scenarioFs, fsRead, List.map_cons, List.find?_cons, hb] at hrec ⊢
        exact hrec

theorem reload_scenario (s : Nat → Nat) (w : World) (src : Option String)
    (hc : fsRead w.fs cachedCredentialPath = some (.credObj validCred)) :
    reloadCredentials (scenarioEnv s) w src
      = some { w with eng := { w.eng with projectId := none } } := by
  unfold reloadCredentials
  rw [hc]
  simp [scenarioEnv]

theorem blacklist403_spec (status : Nat) (w : World)
    (h2 : w.rot.isEnabled = true)
    (hlt : w.rot.currentIndex < w.rot.credentialFilePaths.length) :
    blacklist403 status w =
      { w with rot := { w.rot with blacklist := w.rot.blacklist ++
          (if status = 403 then
            [(w.rot.credentialFilePaths.get? w.rot.currentIndex).getD ""] else []) } } := by
  unfold blacklist403 getCurrentAccountPath blacklistAccount
  by_cases hst : status = 403
  · rw [if_pos hst, if_pos hst]
    have hne : w.rot.credentialFilePaths.isEmpty = false := by
      rcases hl : w.rot.credentialFilePaths with _ | ⟨x, xs⟩
      · rw [hl] at hlt; simp at hlt
      · rfl
    rw [h2]
    simp only [Bool.not_true, Bool.false_or, hne]
    rcases hg : w.rot.credentialFilePaths.get? w.rot.currentIndex with _ | v
    · rw [List.get?_eq_get hlt] at hg
      exact Option.noConfusion hg
    · simp [hg, h2]
  · rw [if_neg hst, if_neg hst]
    simp

theorem rotateCredentials_scenario (fs : FS) (rot : RotSt)
    (h2 : rot.isEnabled = true) (h3 : rot.cfg = noResetCfg)
    (hn : 2 ≤ rot.credentialFilePaths.length)
    (hval : fsRead fs
        ((rot.credentialFilePaths.get?
          ((rot.currentIndex + 1) % rot.credentialFilePaths.length)).getD "")
      = some (.credObj validCred)) :
    rotateCredentials 0 0 fs rot =
      .ok (some ((rot.credentialFilePaths.get?
              ((rot.currentIndex + 1) % rot.credentialFilePaths.length)).getD ""),
           { rot with currentIndex := (rot.currentIndex + 1) % rot.credentialFilePaths.length,
                      allAccountsExhausted :=
                        decide ((rot.currentIndex + 1) % rot.credentialFilePaths.length = 0) },
           fsWrite fs cachedCredentialPath (.credObj validCred)) := by
  have hen : isRotationEnabled rot = true := by
    unfold isRotationEnabled
    rw [h2]
    simpa using by omega
  have hv : validateCredentialFile fs
      ((rot.credentialFilePaths.get?
        ((rot.currentIndex + 1) % rot.credentialFilePaths.length)).getD "") = true := by
    unfold validateCredentialFile
    rw [hval]
    decide
  unfold rotateCredentials
  rw [hen]
  unfold shouldResetIndex
  have hfires : shouldResetIndexFires 0 0 rot.cfg rot.lastResetTime = false := by
    rw [h3]; exact noReset _
  rw [hfires]
  unfold performRotation
  simp only [List.get?_eq_getElem?] at hval hv ⊢
  rcases hexh : rot.allAccountsExhausted with _ | _ <;>
    by_cases hz : (rot.currentIndex + 1) % rot.credentialFilePaths.length = 0
  · rw [hz] at hval hv
    simp [hexh, hz, hv, hval]
  · simp [hexh, hz, hv, hval]
  · rw [hz] at hval hv
    simp [hexh, hz, hv, hval]
  · simp [hexh, hz, hv, hval]

theorem rotation_step (s : Nat → Nat) (gp : Option String)
    (recur : World → GRequest → Nat → SResult × World)
    (paths : List String) (status : Nat) (v : World) (req : GRequest) (r : Nat)
    (hst : status = 429 ∨ status = 403 ∨ status = 504)
    (hn : 2 ≤ paths.length) (hrn : r < paths.length)
    (H1 : v.rot.credentialFilePaths = paths) (H2 : v.rot.isEnabled = true)
    (H3 : v.rot.cfg = noResetCfg) (H4 : v.rot.currentIndex = r % paths.length)
    (H5 : ∀ p ∈ paths, fsRead v.fs p = some (.credObj validCred))
    (hrec : ∀ (w2 : World) (req2 : GRequest),
       w2.rot.credentialFilePaths = paths → w2.rot.isEnabled = true →
       w2.rot.cfg = noResetCfg → w2.rot.currentIndex = (r + 1) % paths.length →
       (∀ p ∈ paths, fsRead w2.fs p = some (.credObj validCred)) →
       (recur w2 req2 (r + 1)).1 = .failure ⟨.streamFailed, s w2.attempts, ""⟩ ∧
       (recur w2 req2 (r + 1)).2.attempts = w2.attempts + (paths.length - (r + 1)) + 1 ∧
       (recur w2 req2 (r + 1)).2.rot.credentialFilePaths = paths ∧
       (recur w2 req2 (r + 1)).2.rot.blacklist
         = w2.rot.blacklist ++ blkAdds s paths w2.attempts (r + 1) ∧
       (recur w2 req2 (r + 1)).2.swallowed
         = w2.swallowed ++ swAdds s paths.length w2.attempts (r + 1)) :
    (rotationRetry (scenarioEnv s) gp recur status "" v req r).1
        = .failure ⟨.streamFailed, status, ""⟩ ∧
    (rotationRetry (scenarioEnv s) gp recur status "" v req r).2.attempts
        = v.attempts + (paths.length - (r + 1)) + 1 ∧
    (rotationRetry (scenarioEnv s) gp recur status "" v req r).2.rot.credentialFilePaths = paths ∧
    (rotationRetry (scenarioEnv s) gp recur status "" v req r).2.rot.blacklist
        = v.rot.blacklist ++ (if status = 403 then [(paths.get? r).getD ""] else [])
          ++ blkAdds s paths v.attempts (r + 1) ∧
    (rotationRetry (scenarioEnv s) gp recur status "" v req r).2.swallowed
        = v.swallowed ++ swAdds s paths.length v.attempts (r + 1)
          ++ [.api (if r + 1 ≥ paths.length then ⟨.exhausted paths.length, status, ""⟩
                    else ⟨.streamFailed, s v.attempts, ""⟩)] := by
  have h408 : status ≠ 408 := by rcases hst with h | h | h <;> omega
  have hvlt : v.rot.currentIndex < v.rot.credentialFilePaths.length := by
    rw [H1, H4]
    exact Nat.mod_lt _ (by omega)
  have hW := blacklist403_spec status v H2 hvlt
  have hlt2 : (r + 1) % paths.length < paths.length := Nat.mod_lt _ (by omega)
  have hval0 : fsRead v.fs ((paths.get? ((r + 1) % paths.length)).getD "")
      = some (.credObj validCred) := by
    rcases hg2 : paths.get? ((r + 1) % paths.length) with _ | pv
    · rw [List.get?_eq_get hlt2] at hg2
      exact Option.noConfusion hg2
    · exact H5 pv (List.get?_mem hg2)
  dsimp only [rotationRetry]
  rw [hW]
  dsimp only
  rw [H1, H2, H3, H4, Nat.mod_eq_of_lt hrn]
  simp only [if_neg h408]
  have he1 : (scenarioEnv s).nowMs = 0 := rfl
  have he2 : (scenarioEnv s).hostTzOffsetMin = 0 := rfl
  rw [he1, he2]
  have hrot := rotateCredentials_scenario v.fs
    (⟨paths, r, true, v.rot.allAccountsExhausted, v.rot.lastResetTime, noResetCfg,
      v.rot.blacklist ++ if status = 403 then [(paths.get? r).getD ""] else []⟩ : RotSt)
    rfl rfl hn hval0
  rw [hrot]
  dsimp only
  have hcread : fsRead (fsWrite v.fs cachedCredentialPath (.credObj validCred))
      cachedCredentialPath = some (.credObj validCred) := by
    rw [fsRead_fsWrite]
    simp
  have hrel := reload_scenario s
    (⟨v.eng,
      ⟨paths, (r + 1) % paths.length, true, decide ((r + 1) % paths.length = 0),
       v.rot.lastResetTime, noResetCfg,
       v.rot.blacklist ++ if status = 403 then [(paths.get? r).getD ""] else []⟩,
      fsWrite v.fs cachedCredentialPath (.credObj validCred),
      v.attempts, v.swallowed⟩ : World)
    (some ((paths.get? ((r + 1) % paths.length)).getD "")) hcread
  rw [hrel]
  dsimp only
  have hfs5 : ∀ p ∈ paths,
      fsRead (fsWrite v.fs cachedCredentialPath (.credObj validCred)) p
        = some (.credObj validCred) := by
    intro p hp
    rw [fsRead_fsWrite]
    by_cases hpc : p = cachedCredentialPath
    · rw [if_pos hpc]
    · rw [if_neg hpc]
      exact H5 p hp
  rcases hd : discoverProjectId gp (scenarioEnv s)
      (⟨v.eng.firstChunk, v.eng.lastThoughtSignature, none⟩ : EngineSt) with ⟨pd, eng2⟩
  dsimp only
  rcases pd with _ | pid
  · rcases hrc : recur
        (⟨eng2, ⟨paths, (r + 1) % paths.length, true, decide ((r + 1) % paths.length = 0),
          v.rot.lastResetTime, noResetCfg,
          v.rot.blacklist ++ if status = 403 then [(paths.get? r).getD ""] else []⟩,
         fsWrite v.fs cachedCredentialPath (.credObj validCred),
         v.attempts, v.swallowed⟩ : World)
        req (r + 1) with ⟨res, w4⟩
    have hres := hrec
      (⟨eng2, ⟨paths, (r + 1) % paths.length, true, decide ((r + 1) % paths.length = 0),
        v.rot.lastResetTime, noResetCfg,
        v.rot.blacklist ++ if status = 403 then [(paths.get? r).getD ""] else []⟩,
       fsWrite v.fs cachedCredentialPath (.credObj validCred),
       v.attempts, v.swallowed⟩ : World)
      req rfl rfl rfl rfl hfs5
    rw [hrc] at hres
    obtain ⟨hx1, hx2, hx3, hx4, hx5⟩ := hres
    dsimp only at hx1 hx2 hx3 hx4 hx5 ⊢
    subst hx1
    dsimp only
    refine ⟨rfl, hx2, hx3, hx4, ?_⟩
    rw [hx3, hx5]
  · rcases hrc : recur
        (⟨eng2, ⟨paths, (r + 1) % paths.length, true, decide ((r + 1) % paths.length = 0),
          v.rot.lastResetTime, noResetCfg,
          v.rot.blacklist ++ if status = 403 then [(paths.get? r).getD ""] else []⟩,
         fsWrite v.fs cachedCredentialPath (.credObj validCred),
         v.attempts, v.swallowed⟩ : World)
        { req with project := some pid } (r + 1) with ⟨res, w4⟩
    have hres := hrec
      (⟨eng2, ⟨paths, (r + 1) % paths.length, true, decide ((r + 1) % paths.length = 0),
        v.rot.lastResetTime, noResetCfg,
        v.rot.blacklist ++ if status = 403 then [(paths.get? r).getD ""] else []⟩,
       fsWrite v.fs cachedCredentialPath (.credObj validCred),
       v.attempts, v.swallowed⟩ : World)
      { req with project := some pid } rfl rfl rfl rfl hfs5
    rw [hrc] at hres
    obtain ⟨hx1, hx2, hx3, hx4, hx5⟩ := hres
    dsimp only at hx1 hx2 hx3 hx4 hx5 ⊢
    subst hx1
    dsimp only
    refine ⟨rfl, hx2, hx3, hx4, ?_⟩
    rw [hx3, hx5]

theorem rotation_loop (s : Nat → Nat) (gp : Option String) (paths : List String)
    (hs : ∀ k, s k = 429 ∨ s k = 403 ∨ s k = 504)
    (hn : 2 ≤ paths.length) :
    ∀ (fuel : Nat) (w : World) (req : GRequest) (r : Nat),
      paths.length - r < fuel →
      r ≤ paths.length →
      w.rot.credentialFilePaths = paths →
      w.rot.isEnabled = true →
      w.rot.cfg = noResetCfg →
      w.rot.currentIndex = r % paths.length →
      (∀ p ∈ paths, fsRead w.fs p = some (.credObj validCred)) →
      (streamContentInternal (scenarioEnv s) gp fuel w req r).1
          = .failure ⟨.streamFailed, s w.attempts, ""⟩ ∧
      (streamContentInternal (scenarioEnv s) gp fuel w req r).2.attempts
          = w.attempts + (paths.length - r) + 1 ∧
      (streamContentInternal (scenarioEnv s) gp fuel w req r).2.rot.credentialFilePaths = paths ∧
      (streamContentInternal (scenarioEnv s) gp fuel w req r).2.rot.blacklist
          = w.rot.blacklist ++ blkAdds s paths w.attempts r ∧
      (streamContentInternal (scenarioEnv s) gp fuel w req r).2.swallowed
          = w.swallowed ++ swAdds s paths.length w.attempts r := by
  intro fuel
  induction fuel with
  | zero =>
    intro w req r hf
    exact absurd hf (by omega)
  | succ fuel ih =>
    intro w req r hf hr H1 H2 H3 H4 H5
    have ha := hs w.attempts
    have hs401 : ¬(s w.attempts = 401 ∧ r = 0) := by
      rintro ⟨h, -⟩
      rcases ha with h2 | h2 | h2 <;> omega
    have hs408 : s w.attempts ≠ 408 := by
      rcases ha with h2 | h2 | h2 <;> omega
    simp only [streamContentInternal]
    have hup : (scenarioEnv s).up w.attempts = .httpError (s w.attempts) "" := rfl
    rw [hup]
    dsimp only
    rw [if_neg hs401]
    simp only [if_neg hs408]
    by_cases hrn : r < paths.length
    · have hen : isRotationEnabled w.rot = true := by
        unfold isRotationEnabled
        rw [H2, H1]
        simp only [Bool.true_and, decide_eq_true_eq]
        omega
      have hcond : (s w.attempts = 429 ∨ s w.attempts = 403 ∨ s w.attempts = 504)
          ∧ r < w.rot.credentialFilePaths.length ∧ isRotationEnabled w.rot = true :=
        ⟨ha, by rw [H1]; exact hrn, hen⟩
      rw [if_pos hcond]
      have hstep := rotation_step s gp (streamContentInternal (scenarioEnv s) gp fuel) paths
        (s w.attempts) (⟨w.eng, w.rot, w.fs, w.attempts + 1, w.swallowed⟩ : World) req r
        ha hn hrn H1 H2 H3 H4 H5
        (fun w2 req2 hA hB hC hD hE =>
          ih w2 req2 (r + 1) (by omega) (by omega) hA hB hC hD hE)
      obtain ⟨hc1, hc2, hc3, hc4, hc5⟩ := hstep
      dsimp only at hc1 hc2 hc3 hc4 hc5
      refine ⟨hc1, ?_, hc3, ?_, ?_⟩
      · rw [hc2]
        omega
      · rw [hc4]
        conv_rhs => rw [blkAdds, if_pos hrn]
        rw [List.append_assoc]
      · rw [hc5]
        conv_rhs => rw [swAdds, if_pos hrn]
        rw [List.append_assoc]
    · have hcond : ¬((s w.attempts = 429 ∨ s w.attempts = 403 ∨ s w.attempts = 504)
          ∧ r < w.rot.credentialFilePaths.length ∧ isRotationEnabled w.rot = true) := by
        rintro ⟨-, hlt, -⟩
        rw [H1] at hlt
        omega
      rw [if_neg hcond]
      dsimp only
      refine ⟨rfl, by omega, H1, ?_, ?_⟩
      · conv_rhs => rw [blkAdds, if_neg hrn]
        rw [List.append_nil]
      · conv_rhs => rw [swAdds, if_neg hrn]
        rw [List.append_nil]

theorem swAdds_exhausted (s : Nat → Nat) (n : Nat) :
    ∀ (d a r : Nat), n - r = d + 1 →
      CaughtErr.api ⟨.exhausted n, s (a + (n - 1 - r)), ""⟩ ∈ swAdds s n a r := by
  intro d
  induction d with
  | zero =>
    intro a r h
    rw [swAdds, if_pos (by omega)]
    have h1 : r + 1 ≥ n := by omega
    have h2 : n - 1 - r = 0 := by omega
    rw [h2, if_pos h1, swAdds, if_neg (by omega)]
    simp
  | succ d ihd =>
    intro a r h
    rw [swAdds, if_pos (by omega)]
    refine List.mem_append_left _ ?_
    have hm := ihd (a + 1) (r + 1) (by omega)
    have he : a + 1 + (n - 1 - (r + 1)) = a + (n - 1 - r) := by omega
    rw [he] at hm
    exact hm

theorem blkAdds_const403 (paths : List String) :
    ∀ (d a r : Nat), paths.length - r = d →
      blkAdds (fun _ => 403) paths a r = paths.drop r := by
  intro d
  induction d with
  | zero =>
    intro a r h
    rw [blkAdds, if_neg (by omega), List.drop_eq_nil_of_le (by omega)]
  | succ d ihd =>
    intro a r h
    have hlt : r < paths.length := by omega
    rw [blkAdds, if_pos (by omega), if_pos rfl, List.get?_eq_get hlt,
      ihd (a + 1) (r + 1) (by omega), List.drop_eq_getElem_cons hlt]
    simp

/-- **C1**: refuted as stated.  With N = 2 accounts, rotation enabled and an
upstream that returns 429 on every attempt, a single engine call makes 3 = N + 1
upstream attempts (not at most N), and the error it terminates with is the
generic stream failure carrying the *first* attempt's status — the typed
"All 2 OAuth accounts exhausted" error is constructed in the inner catch but
then swallowed by the surrounding rotation catch handler, never surfacing. -/
theorem c1_counterexample :
    (streamContentInternal (scenarioEnv (fun _ => 429)) none 4
        (scenarioWorld ["a.json", "b.json"]) scenarioReq 0).2.attempts = 3 ∧
    (streamContentInternal (scenarioEnv (fun _ => 429)) none 4
        (scenarioWorld ["a.json", "b.json"]) scenarioReq 0).1
      = .failure ⟨.streamFailed, 429, ""⟩ ∧
    (streamContentInternal (scenarioEnv (fun _ => 429)) none 4
        (scenarioWorld ["a.json", "b.json"]) scenarioReq 0).2.swallowed
      = [.api ⟨.exhausted 2, 429, ""⟩, .api ⟨.streamFailed, 429, ""⟩] :=
  ⟨rfl, rfl, rfl⟩

/-- **C1** (amended): for every pool of N ≥ 2 accounts and an upstream that
returns 429 or 403 on every attempt, the engine terminates after exactly N + 1
upstream attempts (the guard `retryCount < accountCount` bounds the recursion,
but the initial attempt is not counted by `retryCount`); the terminal error is
the generic stream failure carrying the *first* attempt's HTTP status, and the
typed "All N accounts exhausted" error is constructed at the retry-budget
boundary but swallowed by the rotation catch handler instead of being raised. -/
theorem c1_rotation_bound_amended (s : Nat → Nat) (paths : List String) (fuel : Nat)
    (hs : ∀ k, s k = 429 ∨ s k = 403)
    (hn : 2 ≤ paths.length) (hfuel : paths.length < fuel) :
    (streamContentInternal (scenarioEnv s) none fuel
        (scenarioWorld paths) scenarioReq 0).2.attempts = paths.length + 1 ∧
    (streamContentInternal (scenarioEnv s) none fuel
        (scenarioWorld paths) scenarioReq 0).1 = .failure ⟨.streamFailed, s 0, ""⟩ ∧
    CaughtErr.api ⟨.exhausted paths.length, s (paths.length - 1), ""⟩
      ∈ (streamContentInternal (scenarioEnv s) none fuel
          (scenarioWorld paths) scenarioReq 0).2.swallowed := by
  have hmain := rotation_loop s none paths (fun k => (hs k).imp id Or.inl) hn fuel
    (scenarioWorld paths) scenarioReq 0 (by omega) (by omega) rfl rfl rfl
    (by simp [scenarioWorld, scenarioRot])
    (fun p hp => scenarioFs_read paths p hp)
  obtain ⟨h1, h2, h3, h4, h5⟩ := hmain
  simp only [show (scenarioWorld paths).attempts = 0 from rfl,
    show (scenarioWorld paths).swallowed = ([] : List CaughtErr) from rfl,
    List.nil_append] at h1 h2 h5
  refine ⟨by rw [h2]; omega, h1, ?_⟩
  rw [h5]
  have hmem := swAdds_exhausted s paths.length (paths.length - 1) 0 0 (by omega)
  simpa using hmem

/-- Witness for the amended C1: two accounts, a constant-429 upstream. -/
theorem c1_rotation_bound_amended_witness :
    (2 ≤ (["a.json", "b.json"] : List String).length ∧
      (["a.json", "b.json"] : List String).length < 3) ∧
    ((streamContentInternal (scenarioEnv (fun _ => 429)) none 3
        (scenarioWorld ["a.json", "b.json"]) scenarioReq 0).2.attempts
        = (["a.json", "b.json"] : List String).length + 1 ∧
     (streamContentInternal (scenarioEnv (fun _ => 429)) none 3
        (scenarioWorld ["a.json", "b.json"]) scenarioReq 0).1
        = .failure ⟨.streamFailed, 429, ""⟩ ∧
     CaughtErr.api ⟨.exhausted (["a.json", "b.json"] : List String).length, 429, ""⟩
        ∈ (streamContentInternal (scenarioEnv (fun _ => 429)) none 3
            (scenarioWorld ["a.json", "b.json"]) scenarioReq 0).2.swallowed) :=
  ⟨⟨by decide, by decide⟩,
   c1_rotation_bound_amended (fun _ => 429) ["a.json", "b.json"] 3
     (fun _ => Or.inl rfl) (by decide) (by decide)⟩

/-- **C2**: refuted in its error-surfacing part.  With 2 accounts all returning
403, each account is marked degraded exactly once (under the spec-modelled
`blacklistAccount`), but the call does *not* terminate with the
accounts-exhausted error: it terminates with the generic stream failure for the
first 403, the exhausted error being swallowed by the rotation catch handler. -/
theorem c2_counterexample :
    (streamContentInternal (scenarioEnv (fun _ => 403)) none 4
        (scenarioWorld ["a.json", "b.json"]) scenarioReq 0).2.rot.blacklist
      = ["a.json", "b.json"] ∧
    (streamContentInternal (scenarioEnv (fun _ => 403)) none 4
        (scenarioWorld ["a.json", "b.json"]) scenarioReq 0).1
      = .failure ⟨.streamFailed, 403, ""⟩ ∧
    (streamContentInternal (scenarioEnv (fun _ => 403)) none 4
        (scenarioWorld ["a.json", "b.json"]) scenarioReq 0).2.swallowed
      = [.api ⟨.exhausted 2, 403, ""⟩, .api ⟨.streamFailed, 403, ""⟩] :=
  ⟨rfl, rfl, rfl⟩

/-- **C2** (amended): for every duplicate-free pool of N ≥ 2 accounts all
returning 403, every account of the pool ends up marked degraded exactly once
(in pool order, under the spec-modelled `blacklistAccount` — the method the
client calls is absent from the rotator source); the accounts-exhausted error
naming all N accounts is constructed but swallowed, and the call terminates
with the generic stream failure for the first 403. -/
theorem c2_blacklist_amended (paths : List String) (fuel : Nat)
    (hnd : paths.Nodup) (hn : 2 ≤ paths.length) (hfuel : paths.length < fuel) :
    (streamContentInternal (scenarioEnv (fun _ => 403)) none fuel
        (scenarioWorld paths) scenarioReq 0).2.rot.blacklist = paths ∧
    (∀ p ∈ paths,
      ((streamContentInternal (scenarioEnv (fun _ => 403)) none fuel
          (scenarioWorld paths) scenarioReq 0).2.rot.blacklist).count p = 1) ∧
    (streamContentInternal (scenarioEnv (fun _ => 403)) none fuel
        (scenarioWorld paths) scenarioReq 0).1 = .failure ⟨.streamFailed, 403, ""⟩ ∧
    CaughtErr.api ⟨.exhausted paths.length, 403, ""⟩
      ∈ (streamContentInternal (scenarioEnv (fun _ => 403)) none fuel
          (scenarioWorld paths) scenarioReq 0).2.swallowed := by
  have hmain := rotation_loop (fun _ => 403) none paths (fun _ => Or.inr (Or.inl rfl)) hn fuel
    (scenarioWorld paths) scenarioReq 0 (by omega) (by omega) rfl rfl rfl
    (by simp [scenarioWorld, scenarioRot])
    (fun p hp => scenarioFs_read paths p hp)
  obtain ⟨h1, h2, h3, h4, h5⟩ := hmain
  simp only [show (scenarioWorld paths).attempts = 0 from rfl,
    show (scenarioWorld paths).swallowed = ([] : List CaughtErr) from rfl,
    show (scenarioWorld paths).rot.blacklist = ([] : List String) from rfl,
    List.nil_append] at h1 h4 h5
  have hbl : (streamContentInternal (scenarioEnv (fun _ => 403)) none fuel
      (scenarioWorld paths) scenarioReq 0).2.rot.blacklist = paths := by
    rw [h4, blkAdds_const403 paths paths.length 0 0 (by omega), List.drop_zero]
  refine ⟨hbl, ?_, h1, ?_⟩
  · intro p hp
    rw [hbl]
    exact List.count_eq_one_of_mem hnd hp
  · rw [h5]
    have hmem := swAdds_exhausted (fun _ => 403) paths.length (paths.length - 1) 0 0 (by omega)
    simpa using hmem

/-- Witness for the amended C2: two distinct accounts, a constant-403 upstream. -/
theorem c2_blacklist_amended_witness :
    ((["a.json", "b.json"] : List String).Nodup ∧
      2 ≤ (["a.json", "b.json"] : List String).length ∧
      (["a.json", "b.json"] : List String).length < 3) ∧
    ((streamContentInternal (scenarioEnv (fun _ => 403)) none 3
        (scenarioWorld ["a.json", "b.json"]) scenarioReq 0).2.rot.blacklist
        = ["a.json", "b.json"] ∧
     (∀ p ∈ (["a.json", "b.json"] : List String),
       ((streamContentInternal (scenarioEnv (fun _ => 403)) none 3
           (scenarioWorld ["a.json", "b.json"]) scenarioReq 0).2.rot.blacklist).count p = 1) ∧
     (streamContentInternal (scenarioEnv (fun _ => 403)) none 3
        (scenarioWorld ["a.json", "b.json"]) scenarioReq 0).1
        = .failure ⟨.streamFailed, 403, ""⟩ ∧
     CaughtErr.api ⟨.exhausted (["a.json", "b.json"] : List String).length, 403, ""⟩
        ∈ (streamContentInternal (scenarioEnv (fun _ => 403)) none 3
            (scenarioWorld ["a.json", "b.json"]) scenarioReq 0).2.swallowed) :=
  ⟨⟨by decide, by decide, by decide⟩,
   c2_blacklist_amended ["a.json", "b.json"] 3 (by decide) (by decide) (by decide)⟩
